/-
  Verification development for the atmospheric-correction interpolation engine
  of the surface-reflectance application (lasrc, `lut_subr.c`).

  The C code is shallowly embedded over the real numbers: C `float`/`double`
  arithmetic is modelled by exact real arithmetic, C arrays by total functions
  on `ℤ` (flat indices, as in the source), `(int)` casts by truncation toward
  zero, and the one failure path (the solar-zenith domain check) by `Option`.
-/
import Mathlib

noncomputable section

open Real

open scoped Classical

namespace Lasrc

/-! ## Table dimensions

The numeric table dimensions come from the application's header (not part of
the engine source file); the spec (§3) fixes the shapes: 7 pressure levels,
22 AOT values, 20 solar/view zenith values.  The remaining strides
(`NSUNANGLE_VALS`, `NSOLAR_VALS`) only enter flattened-index arithmetic. -/

/-- Modelled from the spec: number of surface pressure levels (spec §3, N_p = 7). -/
def NPRES_VALS : ℤ := 7

/-- Modelled from the spec: number of AOT grid values (spec §3, N_a = 22). -/
def NAOT_VALS : ℤ := 22

/-- Modelled from the spec: number of solar zenith grid values (spec §3, N_s = 20). -/
def NSOLAR_ZEN_VALS : ℤ := 20

/-- Modelled from the spec: number of view zenith grid values (spec §3, N_s = 20). -/
def NVIEW_ZEN_VALS : ℤ := 20

/-- Modelled from the spec: sun-angle dimension of the transmission LUT
(missing header constant; only used as a flat-index stride). -/
def NSUNANGLE_VALS : ℤ := 22

/-- Modelled from the spec: compressed solar×view dimension of the reflectance
LUT (missing header constant; only used as a flat-index stride). -/
def NSOLAR_VALS : ℤ := 8000

/-- `NAOT_VALS * NSUNANGLE_VALS`, as precomputed in the header. -/
def NAOTxNSUNANGLE_VALS : ℤ := NAOT_VALS * NSUNANGLE_VALS

/-- `NAOT_VALS * NSOLAR_VALS`, as precomputed in the header. -/
def NAOTxNSOLAR_VALS : ℤ := NAOT_VALS * NSOLAR_VALS

/-- Modelled from the spec: `1/1013` (standard sea-level pressure is 1013 mb,
code notes of `atmcorlamb2` and `comptg`). -/
def ONE_DIV_ATMOS_PRES_0 : ℝ := 1 / 1013

/-- Degrees to radians, `DEG2RAD`. -/
def DEG2RAD : ℝ := Real.pi / 180

/-- Radians to degrees, `RAD2DEG`. -/
def RAD2DEG : ℝ := 180 / Real.pi

/-- C `(int)` cast of a floating value: truncation toward zero. -/
def ctrunc (x : ℝ) : ℤ := if 0 ≤ x then ⌊x⌋ else ⌈x⌉

/-- The C scan pattern `acc = 0; for (i = 0; i < n; i++) if (cond i) acc = i;`:
the last index `i < n` satisfying `cond`, or `0` if none does. -/
def scan_last (cond : ℕ → Prop) (n : ℕ) : ℕ :=
  (List.range n).foldl (fun acc i => if cond i then i else acc) 0

/-- Satellite families supported by the engine (`Sat_t` values used here). -/
inductive Sat where
  | landsat8
  | landsat9
  | sentinel2
deriving DecidableEq

/-- `landsat_lambda`: Landsat band-center wavelengths (µm). -/
def landsat_lambda : List ℝ := [0.443, 0.480, 0.585, 0.655, 0.865, 1.61, 2.2]

/-- `sentinel_lambda`: Sentinel-2 band-center wavelengths (µm), bands 9 and 10
skipped (ESPA default). -/
def sentinel_lambda : List ℝ :=
  [0.443, 0.490, 0.560, 0.665, 0.705, 0.740, 0.783, 0.842, 0.865, 1.61, 2.19]

/-- Wavelength table selected per satellite family. -/
def lambda_of (sat : Sat) : List ℝ :=
  match sat with
  | .landsat8 => landsat_lambda
  | .landsat9 => landsat_lambda
  | .sentinel2 => sentinel_lambda

/-- Modelled from the spec: the last band index of the sensor's
"extinction-aware" band set (`DNL_BAND7` / `DNS_BAND12` of the missing header):
the last index of the per-family wavelength table. -/
def max_band_indx (sat : Sat) : ℤ :=
  match sat with
  | .landsat8 => 6
  | .landsat9 => 6
  | .sentinel2 => 10

/-! ## Gas transmission model (`comptg`) -/

/-- Output bundle of `comptg`. -/
structure TgOut where
  tgoz : ℝ
  tgwv : ℝ
  tgwvhalf : ℝ
  tgog : ℝ

/-- `comptg`: transmission of water vapor, ozone and other gases. -/
def comptg (iband : ℤ) (xmus xmuv uoz uwv atm_pres : ℝ)
    (ogtransa1 ogtransb0 ogtransb1 wvtransa wvtransb oztransa : ℤ → ℝ) : TgOut :=
  let m := 1 / xmus + 1 / xmuv
  let tgoz := Real.exp (oztransa iband * m * uoz)
  let a := wvtransa iband
  let b := wvtransb iband
  let x := m * uwv
  let tgwv := if x > 1e-6 then Real.exp (-a * x ^ b) else 1
  let xh := x * 0.5
  let tgwvhalf := if xh > 1e-6 then Real.exp (-a * xh ^ b) else 1
  let tgog :=
    Real.exp (-(ogtransa1 iband * atm_pres) *
      m ^ Real.exp (-(ogtransb0 iband + ogtransb1 iband * atm_pres)))
  ⟨tgoz, tgwv, tgwvhalf, tgog⟩

/-! ## Molecular (Rayleigh) reflectance model (`local_chand`) -/

/-- `local_chand`: molecular reflectance from sun/observation angles and the
molecular optical depth. -/
def local_chand (xphi xmuv xmus xtau : ℝ) : ℝ :=
  let xfd : ℝ := 0.958725777
  let phios := xphi * DEG2RAD
  let xcosf2 := -Real.cos phios
  let xcosf3 := Real.cos (2 * phios)
  let xmus2 := xmus * xmus
  let xmuv2 := xmuv * xmuv
  let xph1 := 1 + (3 * xmus2 - 1) * (3 * xmuv2 - 1) * xfd * 0.125
  let xph3a := (1 - xmus2) * (1 - xmuv2)
  let xph2 := -xmus * xmuv * Real.sqrt xph3a * xfd * 0.75
  let xph3 := xph3a * xfd * 0.1875
  let xitm1 := (1 - Real.exp (-xtau * (1 / xmus + 1 / xmuv))) / (4 * (xmus + xmuv))
  let xp1 := xph1 * xitm1
  let xp2 := xph2 * xitm1
  let xp3 := xph3 * xitm1
  let xitm2 := (1 - Real.exp (-xtau / xmus)) * (1 - Real.exp (-xtau / xmuv))
  let cfonc1 := xph1 * xitm2
  let cfonc2 := xph2 * xitm2
  let cfonc3 := xph3 * xitm2
  let xlntau := Real.log xtau
  let fs0 := 1 * 0.33243832 + xlntau * (-6.777104e-2)
    + (xmus + xmuv) * 0.16285370 + xlntau * (xmus + xmuv) * 1.577425e-3
    + (xmus * xmuv) * (-0.30924818) + xlntau * (xmus * xmuv) * (-1.240906e-2)
    + (xmus2 + xmuv2) * (-0.10324388) + xlntau * (xmus2 + xmuv2) * 3.241678e-2
    + (xmus2 * xmuv2) * 0.11493334 + xlntau * (xmus2 * xmuv2) * (-3.503695e-2)
  let fs1 := 1 * 0.19666292 + xlntau * (-5.439061e-2)
  let fs2 := 1 * 0.14545937 + xlntau * (-2.910845e-2)
  let xitot1 := xp1 + cfonc1 * fs0
  let xitot2 := xp2 + cfonc2 * fs1
  let xitot3 := xp3 + cfonc3 * fs2
  xitot1 + 2 * (xitot2 * xcosf2 + xitot3 * xcosf3)

/-! ## Spherical albedo (`compsalb`) -/

/-- The AOT-interpolated spherical albedo at one pressure corner `ip`
(the `satm1`/`satm2` computation inside `compsalb`). -/
def compsalb_pcorner (ip iaot1 iaot2 : ℤ) (raot550nm : ℝ) (iband : ℤ)
    (aot550nm sphalbt : ℤ → ℝ) : ℝ :=
  let deltaaot := (raot550nm - aot550nm iaot1) / (aot550nm iaot2 - aot550nm iaot1)
  let base := iband * (NPRES_VALS * NAOT_VALS) + ip * NAOT_VALS
  sphalbt (base + iaot1) + (sphalbt (base + iaot2) - sphalbt (base + iaot1)) * deltaaot

/-- `compsalb`: spherical albedo, AOT-interpolated at each pressure corner and
then blended linearly across pressure.  (`normext` is an argument of the C
function but is not read by it.) -/
def compsalb (ip1 ip2 iaot1 iaot2 : ℤ) (raot550nm : ℝ) (iband : ℤ) (pres : ℝ)
    (tpres aot550nm sphalbt normext : ℤ → ℝ) : ℝ :=
  let satm1 := compsalb_pcorner ip1 iaot1 iaot2 raot550nm iband aot550nm sphalbt
  let satm2 := compsalb_pcorner ip2 iaot1 iaot2 raot550nm iband aot550nm sphalbt
  let dpres := (pres - tpres ip1) / (tpres ip2 - tpres ip1)
  satm1 + (satm2 - satm1) * dpres

/-! ## Transmission (`comptrans`) -/

/-- Sun-angle index computation shared by `atmcorlamb2` and `comptrans`:
`0` if the angle is at most the table minimum, else the `(int)` cast of
`(angle - min) / step`. -/
def sun_angle_index (xts xtsmin xtsstep : ℝ) : ℤ :=
  if xts ≤ xtsmin then 0 else ctrunc ((xts - xtsmin) / xtsstep)

/-- Linear interpolation of the transmission table across the sun-angle
bracket (`xtranst + (transt[.. + 1] - xtranst) * xmts` in the C code). -/
def comptrans_lerp (transt : ℤ → ℝ) (base its : ℤ) (xmts : ℝ) : ℝ :=
  transt (base + its) + (transt (base + its + 1) - transt (base + its)) * xmts

/-- The AOT-interpolated transmission at one pressure corner `ip`
(the `xtts1`/`xtts2` computation inside `comptrans`). -/
def comptrans_pcorner (ip iaot1 iaot2 : ℤ) (raot550nm : ℝ) (iband : ℤ)
    (aot550nm transt : ℤ → ℝ) (its : ℤ) (xmts : ℝ) : ℝ :=
  let deltaaot := (raot550nm - aot550nm iaot1) / (aot550nm iaot2 - aot550nm iaot1)
  let base := iband * (NPRES_VALS * NAOTxNSUNANGLE_VALS) + ip * NAOTxNSUNANGLE_VALS
  let x1 := comptrans_lerp transt (base + iaot1 * NSUNANGLE_VALS) its xmts
  let x2 := comptrans_lerp transt (base + iaot2 * NSUNANGLE_VALS) its xmts
  x1 + (x2 - x1) * deltaaot

/-- `comptrans`: transmission for one zenith angle.  The C function returns
early, leaving its output unassigned, when the sun-angle index exceeds 19;
this is modelled by `none`. -/
def comptrans (ip1 ip2 iaot1 iaot2 : ℤ) (xts raot550nm : ℝ) (iband : ℤ) (pres : ℝ)
    (tpres aot550nm transt : ℤ → ℝ) (xtsstep xtsmin : ℝ) (tts : ℤ → ℝ) :
    Option ℝ :=
  let its := sun_angle_index xts xtsmin xtsstep
  if its > 19 then none
  else
    let xmts := (xts - tts its) * 0.25
    let xtts1 := comptrans_pcorner ip1 iaot1 iaot2 raot550nm iband aot550nm transt its xmts
    let xtts2 := comptrans_pcorner ip2 iaot1 iaot2 raot550nm iband aot550nm transt its xmts
    let dpres := (pres - tpres ip1) / (tpres ip2 - tpres ip1)
    some (xtts1 + (xtts2 - xtts1) * dpres)

/-! ## Scattering-angle interpolation (`interp_refl_using_scat_angle`) -/

/-- The raw scattering-angle bracket index before the upper clamp:
`isca = (int)((xtsmax - scaa) * 0.25 + 1); if (isca <= 0) isca = 1;`. -/
def isca_pre (xtsmaxi scaa : ℝ) : ℤ :=
  let isca0 := ctrunc ((xtsmaxi - scaa) * 0.25 + 1)
  if isca0 ≤ 0 then 1 else isca0

/-- The branch condition `isca + 1 < nbfi[i]` (int compared to float). -/
def isca_keep (xtsmaxi scaa nbfii : ℝ) : Prop :=
  ((isca_pre xtsmaxi scaa : ℝ) + 1 < nbfii)

/-- The scattering-angle bracket index after both clamps: kept if
`isca + 1 < nbfi[i]`, otherwise replaced by `(int)(nbfi[i] - 1)`. -/
def isca_clamped (xtsmaxi scaa nbfii : ℝ) : ℤ :=
  if isca_keep xtsmaxi scaa nbfii then isca_pre xtsmaxi scaa else ctrunc (nbfii - 1)

/-- One iteration of the four-corner loop of `interp_refl_using_scat_angle`
(`ro[i]` for `i` in `[0,3]`): locate the reflectance sample bracketing the
scattering angle and interpolate linearly, or read the single sample when the
corner's solar or view index is zero. -/
def interp_refl_corner (its itv i : ℤ) (tsmax tsmin nbfic nbfi : ℤ → ℝ)
    (scaa : ℝ) (indts : ℤ → ℤ) (rolutt : ℤ → ℝ) (rolutt_indx : ℤ) : ℝ :=
  let isx := its + i % 2
  let ivx := if i < 2 then itv else itv + 1
  let fi := ivx * NSOLAR_ZEN_VALS + isx
  let j := ctrunc ((indts isx : ℝ) + nbfic fi - nbfi fi)
  if isx ≠ 0 ∧ ivx ≠ 0 then
    let isca := isca_clamped (tsmax fi) scaa (nbfi fi)
    let sca1 := tsmax fi - ((isca : ℝ) - 1) * 4
    let sca2 := if isca_keep (tsmax fi) scaa (nbfi fi) then sca1 - 4 else tsmin fi
    let roinf := rolutt (rolutt_indx + j + isca - 1)
    let rosup := rolutt (rolutt_indx + j + isca)
    roinf + (rosup - roinf) * (scaa - sca1) / (sca2 - sca1)
  else
    rolutt (rolutt_indx + j)

/-- `interp_refl_using_scat_angle`: interpolate the reflectance as a function
of the scattering angle at the four `(its,itv)` corner combinations, then
blend the corners bilinearly with solar weight `t` and view weight `u`. -/
def interp_refl_using_scat_angle (its itv : ℤ) (tsmax tsmin nbfic nbfi : ℤ → ℝ)
    (scaa : ℝ) (indts : ℤ → ℤ) (rolutt : ℤ → ℝ) (rolutt_indx : ℤ) (t u : ℝ) : ℝ :=
  let ro := fun i =>
    interp_refl_corner its itv i tsmax tsmin nbfic nbfi scaa indts rolutt rolutt_indx
  ro 3 + u * (ro 1 - ro 3) + t * (ro 2 - ro 3) + u * t * (ro 0 - ro 1 - ro 2 + ro 3)

/-! ## Atmospheric reflectance (`comproatm`) -/

/-- `logaot550nm`: the 22 precomputed log-AOT constants hard-coded in
`comproatm`. -/
def logaot550nm : List ℝ :=
  [-4.605170186, -2.995732274, -2.302585093,
   -1.897119985, -1.609437912, -1.203972804,
   -0.916290732, -0.510825624, -0.223143551,
    0.000000000, 0.182321557, 0.336472237,
    0.470003629, 0.587786665, 0.693157181,
    0.832909123, 0.955511445, 1.098612289,
    1.252762969, 1.386294361, 1.504077397,
    1.609437912]

/-- Lookup in the hard-coded log-AOT table. -/
def logaotLD (i : ℤ) : ℝ := logaot550nm.getD i.toNat 0

/-- Flat index of the `[iband][ip][iaot]` block of the reflectance LUT. -/
def comproatm_block_indx (iband ip iaot : ℤ) : ℤ :=
  iband * (NPRES_VALS * NAOTxNSOLAR_VALS) + ip * NAOTxNSOLAR_VALS + iaot * NSOLAR_VALS

/-- The log-space AOT interpolation fraction of `comproatm`:
`(ln aot - logaot550nm[iaot1]) / (logaot550nm[iaot2] - logaot550nm[iaot1])`. -/
def comproatm_deltaaot (raot550nm : ℝ) (iaot1 iaot2 : ℤ) : ℝ :=
  (Real.log raot550nm - logaotLD iaot1) / (logaotLD iaot2 - logaotLD iaot1)

/-- The log-space AOT-interpolated reflectance at one pressure corner `ip`
(the `rop1`/`rop2` computation inside `comproatm`). -/
def comproatm_pcorner (ip iaot1 iaot2 : ℤ) (raot550nm : ℝ) (iband : ℤ)
    (rolutt tsmax tsmin nbfic nbfi : ℤ → ℝ) (scaa : ℝ) (indts : ℤ → ℤ)
    (its itv : ℤ) (t u : ℝ) : ℝ :=
  let roiaot1 := interp_refl_using_scat_angle its itv tsmax tsmin nbfic nbfi scaa
    indts rolutt (comproatm_block_indx iband ip iaot1) t u
  let roiaot2 := interp_refl_using_scat_angle its itv tsmax tsmin nbfic nbfi scaa
    indts rolutt (comproatm_block_indx iband ip iaot2) t u
  roiaot1 + (roiaot2 - roiaot1) * comproatm_deltaaot raot550nm iaot1 iaot2

/-- `comproatm`: the atmospheric reflectance — scattering-angle interpolation
at the four (pressure, AOT) corners, log-space blend across AOT, linear blend
across pressure.  (`aot550nm`, `xtsstep`, `xtvstep`, `xtvmin` are arguments of
the C function but are not read by it.) -/
def comproatm (ip1 ip2 iaot1 iaot2 : ℤ) (xts xtv xmus xmuv cosxfi raot550nm : ℝ)
    (iband : ℤ) (pres : ℝ) (tpres aot550nm rolutt tsmax tsmin nbfic nbfi tts : ℤ → ℝ)
    (indts : ℤ → ℤ) (ttv : ℤ → ℝ) (xtsstep xtvstep xtvmin : ℝ) (its itv : ℤ) : ℝ :=
  let cscaa := -(xmus * xmuv) -
    cosxfi * Real.sqrt (1 - xmus * xmus) * Real.sqrt (1 - xmuv * xmuv)
  let scaa := Real.arccos cscaa * RAD2DEG
  let t := (tts (its + 1) - xts) / (tts (its + 1) - tts its)
  let u := (ttv ((itv + 1) * NSOLAR_ZEN_VALS + its) - xtv) /
    (ttv ((itv + 1) * NSOLAR_ZEN_VALS + its) - ttv (itv * NSOLAR_ZEN_VALS + its))
  let rop1 := comproatm_pcorner ip1 iaot1 iaot2 raot550nm iband rolutt tsmax tsmin
    nbfic nbfi scaa indts its itv t u
  let rop2 := comproatm_pcorner ip2 iaot1 iaot2 raot550nm iband rolutt tsmax tsmin
    nbfic nbfi scaa indts its itv t u
  let dpres := (pres - tpres ip1) / (tpres ip2 - tpres ip1)
  rop1 + (rop2 - rop1) * dpres

/-! ## The two solver variants -/

/-- The AOT adjustment of `atmcorlamb2`: unchanged for a negative angstrom
exponent or a band outside the extinction-aware set, otherwise rescaled by
`(raot550nm / normext[iband][0][3]) * (lambda[iband]/0.55)^(-eps)`.
No upper clamp is applied. -/
def atmcorlamb2_mraot (sat : Sat) (eps : ℝ) (iband : ℤ) (raot550nm : ℝ)
    (normext : ℤ → ℝ) : ℝ :=
  if eps < 0 ∨ iband > max_band_indx sat then raot550nm
  else
    (raot550nm / normext (iband * (NPRES_VALS * NAOT_VALS) + 3)) *
      ((lambda_of sat).getD iband.toNat 0 * (1 / 0.55)) ^ (-eps)

/-- The AOT adjustment of `atmcorlamb2_new`: the same rescaling, followed by
the clamp `if (mraot550nm >= roatm_upper) mraot550nm = roatm_upper;`. -/
def atmcorlamb2_new_mraot (sat : Sat) (eps : ℝ) (iband : ℤ)
    (raot550nm normext_ib_0_3 roatm_upper : ℝ) : ℝ :=
  let m :=
    if eps < 0 ∨ iband > max_band_indx sat then raot550nm
    else (raot550nm / normext_ib_0_3) *
      ((lambda_of sat).getD iband.toNat 0 * (1 / 0.55)) ^ (-eps)
  if m ≥ roatm_upper then roatm_upper else m

/-- `atmcorlamb2_new`: the coefficient-fit solver variant — cubic polynomials
in the (adjusted, clamped) AOT, then the two-line inversion. -/
def atmcorlamb2_new (sat : Sat) (tgo roatm_upper : ℝ)
    (roatm_coef ttatmg_coef satm_coef : ℤ → ℝ) (raot550nm : ℝ) (iband : ℤ)
    (normext_ib_0_3 rotoa : ℝ) (eps : ℝ) : ℝ :=
  let m := atmcorlamb2_new_mraot sat eps iband raot550nm normext_ib_0_3 roatm_upper
  let m_sq := m * m
  let m_cube := m_sq * m
  let roatm := roatm_coef 3 + roatm_coef 2 * m + roatm_coef 1 * m_sq + roatm_coef 0 * m_cube
  let ttatmg := ttatmg_coef 3 + ttatmg_coef 2 * m + ttatmg_coef 1 * m_sq + ttatmg_coef 0 * m_cube
  let satm := satm_coef 3 + satm_coef 2 * m + satm_coef 1 * m_sq + satm_coef 0 * m_cube
  let roslamb0 := rotoa - tgo * roatm
  roslamb0 / (tgo * ttatmg + satm * roslamb0)

/-- The pressure scan of `atmcorlamb2`: last `ip` in `[0, NPRES_VALS-2]`
with `pres < tpres[ip]`, or `0`. -/
def atmc_ip1 (pres : ℝ) (tpres : ℤ → ℝ) : ℤ :=
  (scan_last (fun ip => pres < tpres (ip : ℤ)) 6 : ℤ)

/-- The AOT scan of `atmcorlamb2`: last `iaot` in `[0, 20]`
with `mraot550nm > aot550nm[iaot]`, or `0`. -/
def atmc_iaot1 (mraot550nm : ℝ) (aot550nm : ℤ → ℝ) : ℤ :=
  (scan_last (fun iaot => mraot550nm > aot550nm (iaot : ℤ)) 21 : ℤ)

/-- The view-angle index of `atmcorlamb2`: `0` if at most the minimum, else
the `(int)` cast of `(xtv - xtvmin)/xtvstep + 1`. -/
def view_angle_index (xtv xtvmin xtvstep : ℝ) : ℤ :=
  if xtv ≤ xtvmin then 0 else ctrunc ((xtv - xtvmin) / xtvstep + 1)

/-- Output bundle of `atmcorlamb2`. -/
structure AtmOut where
  roslamb : ℝ
  tgo : ℝ
  roatm : ℝ
  ttatmg : ℝ
  satm : ℝ
  xrorayp : ℝ

/-- The straight-line part of `atmcorlamb2` executed once its solar-zenith
domain check has passed.  `xtts0`/`xttv0` model the values the C code reads
from the uninitialized locals when `comptrans` returns early. -/
def atmcorlamb2_body (sat : Sat) (xts xtv xmus xmuv xfi cosxfi raot550nm : ℝ)
    (iband : ℤ) (pres : ℝ) (tpres aot550nm rolutt transt : ℤ → ℝ)
    (xtsstep xtsmin xtvstep xtvmin : ℝ) (sphalbt normext tsmax tsmin nbfic nbfi tts : ℤ → ℝ)
    (indts : ℤ → ℤ) (ttv : ℤ → ℝ) (uoz uwv : ℝ) (tauray : ℤ → ℝ)
    (ogtransa1 ogtransb0 ogtransb1 wvtransa wvtransb oztransa : ℤ → ℝ)
    (rotoa eps xtts0 xttv0 : ℝ) : AtmOut :=
  let mraot550nm := atmcorlamb2_mraot sat eps iband raot550nm normext
  let ip1 := atmc_ip1 pres tpres
  let ip2 := ip1 + 1
  let iaot1 := atmc_iaot1 mraot550nm aot550nm
  let iaot2 := iaot1 + 1
  let itv := view_angle_index xtv xtvmin xtvstep
  let its := sun_angle_index xts xtsmin xtsstep
  let roatm0 := comproatm ip1 ip2 iaot1 iaot2 xts xtv xmus xmuv cosxfi mraot550nm
    iband pres tpres aot550nm rolutt tsmax tsmin nbfic nbfi tts indts ttv
    xtsstep xtvstep xtvmin its itv
  let xtts := (comptrans ip1 ip2 iaot1 iaot2 xts mraot550nm iband pres tpres
    aot550nm transt xtsstep xtsmin tts).getD xtts0
  let xttv := (comptrans ip1 ip2 iaot1 iaot2 xtv mraot550nm iband pres tpres
    aot550nm transt xtvstep xtvmin tts).getD xttv0
  let ttatm := xtts * xttv
  let satm := compsalb ip1 ip2 iaot1 iaot2 mraot550nm iband pres tpres aot550nm
    sphalbt normext
  let atm_pres := pres * ONE_DIV_ATMOS_PRES_0
  let tg := comptg iband xmus xmuv uoz uwv atm_pres ogtransa1 ogtransb0 ogtransb1
    wvtransa wvtransb oztransa
  let xtaur := tauray iband * atm_pres
  let xrorayp := local_chand xfi xmuv xmus xtaur
  let tgo := tg.tgog * tg.tgoz
  let roatm := (roatm0 - xrorayp) * tg.tgwvhalf + xrorayp
  let ttatmg := ttatm * tg.tgwv
  let roslamb0 := rotoa / tgo - roatm
  let roslamb := roslamb0 / (ttatmg + satm * roslamb0)
  ⟨roslamb, tgo, roatm, ttatmg, satm, xrorayp⟩

/-- `atmcorlamb2`: the full-inversion solver.  `none` models the `ERROR`
return ("Solar zenith (xts) is too large"), taken exactly when the sun-angle
index exceeds 19; otherwise the straight-line body runs and the function
returns `SUCCESS` with its outputs. -/
def atmcorlamb2 (sat : Sat) (xts xtv xmus xmuv xfi cosxfi raot550nm : ℝ)
    (iband : ℤ) (pres : ℝ) (tpres aot550nm rolutt transt : ℤ → ℝ)
    (xtsstep xtsmin xtvstep xtvmin : ℝ) (sphalbt normext tsmax tsmin nbfic nbfi tts : ℤ → ℝ)
    (indts : ℤ → ℤ) (ttv : ℤ → ℝ) (uoz uwv : ℝ) (tauray : ℤ → ℝ)
    (ogtransa1 ogtransb0 ogtransb1 wvtransa wvtransb oztransa : ℤ → ℝ)
    (rotoa eps xtts0 xttv0 : ℝ) : Option AtmOut :=
  if sun_angle_index xts xtsmin xtsstep > 19 then none
  else some (atmcorlamb2_body sat xts xtv xmus xmuv xfi cosxfi raot550nm iband pres
    tpres aot550nm rolutt transt xtsstep xtsmin xtvstep xtvmin sphalbt normext
    tsmax tsmin nbfic nbfi tts indts ttv uoz uwv tauray ogtransa1 ogtransb0
    ogtransb1 wvtransa wvtransb oztransa rotoa eps xtts0 xttv0)

/-! ## Definitions following the spec's words (for refinement claims) -/

/-- Modelled from the spec: the AOT bracket scan as §4.1 words it — a scan
over `[0, N_a - 2]` selecting the last index whose table *value exceeds the
query AOT*.  To be compared against the code's `atmc_iaot1`. -/
def spec_aot_scan (aot550nm : ℤ → ℝ) (q : ℝ) : ℤ :=
  (scan_last (fun iaot => aot550nm (iaot : ℤ) > q) 21 : ℤ)

/-- Modelled from the spec: "the reflectance value obtained at that single AOT
corner" (§8 boundary idempotence) — `comproatm` restricted to one AOT corner:
scattering-angle interpolation at the two pressure corners for the single AOT
index, blended by the pressure fraction only. -/
def comproatm_single_aot (ip1 ip2 iaot : ℤ) (iband : ℤ) (pres : ℝ)
    (tpres rolutt tsmax tsmin nbfic nbfi : ℤ → ℝ) (scaa : ℝ) (indts : ℤ → ℤ)
    (its itv : ℤ) (t u : ℝ) : ℝ :=
  let r1 := interp_refl_using_scat_angle its itv tsmax tsmin nbfic nbfi scaa
    indts rolutt (comproatm_block_indx iband ip1 iaot) t u
  let r2 := interp_refl_using_scat_angle its itv tsmax tsmin nbfic nbfi scaa
    indts rolutt (comproatm_block_indx iband ip2 iaot) t u
  let dpres := (pres - tpres ip1) / (tpres ip2 - tpres ip1)
  r1 + (r2 - r1) * dpres

/-! ## Helper lemmas -/

theorem ctrunc_of_nonneg {x : ℝ} (h : 0 ≤ x) : ctrunc x = ⌊x⌋ := if_pos h

theorem ctrunc_of_neg {x : ℝ} (h : ¬ 0 ≤ x) : ctrunc x = ⌈x⌉ := if_neg h

theorem ctrunc_eq_of_nonneg {n : ℤ} {x : ℝ} (h0 : 0 ≤ x) (h1 : (n : ℝ) ≤ x)
    (h2 : x < n + 1) : ctrunc x = n := by
  rw [ctrunc_of_nonneg h0]
  exact Int.floor_eq_iff.mpr ⟨h1, by exact_mod_cast h2⟩

theorem ctrunc_eq_of_neg {n : ℤ} {x : ℝ} (h0 : ¬ 0 ≤ x) (h1 : (n : ℝ) - 1 < x)
    (h2 : x ≤ n) : ctrunc x = n := by
  rw [ctrunc_of_neg h0]
  exact Int.ceil_eq_iff.mpr ⟨by exact_mod_cast h1, h2⟩

theorem ctrunc_gt19_iff_floor {x : ℝ} : ctrunc x > 19 ↔ ⌊x⌋ > 19 := by
  by_cases h0 : 0 ≤ x
  · rw [ctrunc_of_nonneg h0]
  · rw [ctrunc_of_neg h0]
    push_neg at h0
    have hc : ⌈x⌉ ≤ 0 := Int.ceil_le.mpr (by exact_mod_cast h0.le)
    have hf : ⌊x⌋ ≤ 0 := Int.floor_nonpos h0.le
    constructor <;> intro h <;> omega

theorem scan_last_zero (cond : ℕ → Prop) : scan_last cond 0 = 0 := rfl

theorem scan_last_succ (cond : ℕ → Prop) (n : ℕ) :
    scan_last cond (n + 1) = if cond n then n else scan_last cond n := by
  unfold scan_last
  rw [List.range_succ, List.foldl_append]
  simp

theorem scan_last_lt (cond : ℕ → Prop) {n : ℕ} (h : 0 < n) :
    scan_last cond n < n := by
  induction n with
  | zero => exact absurd h (lt_irrefl 0)
  | succ m ih =>
    rw [scan_last_succ]
    by_cases hc : cond m
    · rw [if_pos hc]; omega
    · rw [if_neg hc]
      rcases Nat.eq_zero_or_pos m with hm | hm
      · subst hm; simp [scan_last_zero]
      · exact lt_trans (ih hm) (Nat.lt_succ_self m)

theorem scan_last_is_ub (cond : ℕ → Prop) {n j : ℕ} (hj : j < n) (hc : cond j) :
    j ≤ scan_last cond n := by
  induction n with
  | zero => omega
  | succ m ih =>
    rw [scan_last_succ]
    by_cases hm : cond m
    · rw [if_pos hm]; omega
    · rw [if_neg hm]
      have hjm : j ≠ m := fun h => hm (h ▸ hc)
      exact ih (by omega)

theorem scan_last_mem (cond : ℕ → Prop) (n : ℕ) :
    scan_last cond n = 0 ∨ cond (scan_last cond n) := by
  induction n with
  | zero => exact Or.inl rfl
  | succ m ih =>
    rw [scan_last_succ]
    by_cases hm : cond m
    · rw [if_pos hm]; exact Or.inr hm
    · rw [if_neg hm]; exact ih

theorem scan_last_threshold (cond : ℕ → Prop) {n k : ℕ} (hk : k ≤ n)
    (h : ∀ j, j < n → (cond j ↔ j < k)) : scan_last cond n = k - 1 := by
  induction n with
  | zero => rw [scan_last_zero]; omega
  | succ m ih =>
    rw [scan_last_succ]
    by_cases hkm : k = m + 1
    · have hc : cond m := (h m (Nat.lt_succ_self m)).mpr (by omega)
      rw [if_pos hc]; omega
    · have hk' : k ≤ m := by omega
      have hc : ¬ cond m := fun hc => by
        have := (h m (Nat.lt_succ_self m)).mp hc; omega
      rw [if_neg hc]
      exact ih hk' (fun j hj => h j (by omega))

/-! Zero-table degeneracy lemmas (used for the fabricated-table claims). -/

theorem interp_refl_corner_zero {its itv i : ℤ} {tsmax tsmin nbfic nbfi : ℤ → ℝ}
    {scaa : ℝ} {indts : ℤ → ℤ} {rolutt : ℤ → ℝ} {rolutt_indx : ℤ}
    (h : ∀ k, rolutt k = 0) :
    interp_refl_corner its itv i tsmax tsmin nbfic nbfi scaa indts rolutt rolutt_indx
      = 0 := by
  unfold interp_refl_corner
  simp only [h]
  split_ifs <;> ring

theorem interp_refl_zero {its itv : ℤ} {tsmax tsmin nbfic nbfi : ℤ → ℝ}
    {scaa : ℝ} {indts : ℤ → ℤ} {rolutt : ℤ → ℝ} {rolutt_indx : ℤ} {t u : ℝ}
    (h : ∀ k, rolutt k = 0) :
    interp_refl_using_scat_angle its itv tsmax tsmin nbfic nbfi scaa indts rolutt
      rolutt_indx t u = 0 := by
  unfold interp_refl_using_scat_angle
  simp only [interp_refl_corner_zero h]
  ring

theorem comproatm_pcorner_zero {ip iaot1 iaot2 : ℤ} {raot550nm : ℝ} {iband : ℤ}
    {rolutt tsmax tsmin nbfic nbfi : ℤ → ℝ} {scaa : ℝ} {indts : ℤ → ℤ}
    {its itv : ℤ} {t u : ℝ} (h : ∀ k, rolutt k = 0) :
    comproatm_pcorner ip iaot1 iaot2 raot550nm iband rolutt tsmax tsmin nbfic nbfi
      scaa indts its itv t u = 0 := by
  unfold comproatm_pcorner
  simp only [interp_refl_zero h]
  ring

theorem comproatm_zero {ip1 ip2 iaot1 iaot2 : ℤ} {xts xtv xmus xmuv cosxfi raot550nm : ℝ}
    {iband : ℤ} {pres : ℝ} {tpres aot550nm rolutt tsmax tsmin nbfic nbfi tts : ℤ → ℝ}
    {indts : ℤ → ℤ} {ttv : ℤ → ℝ} {xtsstep xtvstep xtvmin : ℝ} {its itv : ℤ}
    (h : ∀ k, rolutt k = 0) :
    comproatm ip1 ip2 iaot1 iaot2 xts xtv xmus xmuv cosxfi raot550nm iband pres
      tpres aot550nm rolutt tsmax tsmin nbfic nbfi tts indts ttv
      xtsstep xtvstep xtvmin its itv = 0 := by
  unfold comproatm
  simp only [comproatm_pcorner_zero h]
  ring

theorem comptrans_pcorner_zero {ip iaot1 iaot2 : ℤ} {raot550nm : ℝ} {iband : ℤ}
    {aot550nm transt : ℤ → ℝ} {its : ℤ} {xmts : ℝ} (h : ∀ k, transt k = 0) :
    comptrans_pcorner ip iaot1 iaot2 raot550nm iband aot550nm transt its xmts = 0 := by
  unfold comptrans_pcorner comptrans_lerp
  simp only [h]
  ring

theorem comptrans_zero {ip1 ip2 iaot1 iaot2 : ℤ} {xts raot550nm : ℝ} {iband : ℤ}
    {pres : ℝ} {tpres aot550nm transt : ℤ → ℝ} {xtsstep xtsmin : ℝ} {tts : ℤ → ℝ}
    (h : ∀ k, transt k = 0) (hits : ¬ sun_angle_index xts xtsmin xtsstep > 19) :
    comptrans ip1 ip2 iaot1 iaot2 xts raot550nm iband pres tpres aot550nm transt
      xtsstep xtsmin tts = some 0 := by
  unfold comptrans
  rw [if_neg hits]
  simp only [comptrans_pcorner_zero h]
  norm_num

theorem compsalb_zero {ip1 ip2 iaot1 iaot2 : ℤ} {raot550nm : ℝ} {iband : ℤ}
    {pres : ℝ} {tpres aot550nm sphalbt normext : ℤ → ℝ} (h : ∀ k, sphalbt k = 0) :
    compsalb ip1 ip2 iaot1 iaot2 raot550nm iband pres tpres aot550nm sphalbt
      normext = 0 := by
  unfold compsalb compsalb_pcorner
  simp only [h]
  ring

/-- The sun-angle domain check of `atmcorlamb2`/`comptrans` fires exactly when
the angle strictly exceeds the table minimum and the floor of
`(angle - min)/step` exceeds 19. -/
theorem sun_angle_index_gt19_iff (xts xtsmin xtsstep : ℝ) :
    sun_angle_index xts xtsmin xtsstep > 19 ↔
      (xtsmin < xts ∧ 19 < ⌊(xts - xtsmin) / xtsstep⌋) := by
  unfold sun_angle_index
  by_cases h : xts ≤ xtsmin
  · rw [if_pos h]
    simp only [gt_iff_lt]
    constructor
    · intro hlt; omega
    · rintro ⟨h1, -⟩; exact absurd h (not_le.mpr h1)
  · rw [if_neg h]
    push_neg at h
    rw [gt_iff_lt, ← gt_iff_lt, ctrunc_gt19_iff_floor]
    simp [h]

/-! ## Claim C5 — gas transmission formulas of `comptg` -/

/-- C5: for every band and geometry, `comptg` computes the ozone transmission
`exp(oztransa·m·uoz)` with airmass `m = 1/xmus + 1/xmuv`, the water-vapor
transmission `exp(-a·(m·uwv)^b)` when `m·uwv > 1e-6` and exactly `1` when
`m·uwv ≤ 1e-6`, the half-content variant with `m·uwv/2` under the same
threshold shape, and the other-gas transmission
`exp(-(a1·atm_pres)·m^(exp(-(b0 + b1·atm_pres))))`. -/
theorem C5_comptg_formulas (iband : ℤ) (xmus xmuv uoz uwv atm_pres : ℝ)
    (ogtransa1 ogtransb0 ogtransb1 wvtransa wvtransb oztransa : ℤ → ℝ) :
    (comptg iband xmus xmuv uoz uwv atm_pres ogtransa1 ogtransb0 ogtransb1
        wvtransa wvtransb oztransa).tgoz
      = Real.exp (oztransa iband * (1 / xmus + 1 / xmuv) * uoz) ∧
    ((1 / xmus + 1 / xmuv) * uwv > 1e-6 →
      (comptg iband xmus xmuv uoz uwv atm_pres ogtransa1 ogtransb0 ogtransb1
          wvtransa wvtransb oztransa).tgwv
        = Real.exp (-(wvtransa iband) *
            ((1 / xmus + 1 / xmuv) * uwv) ^ (wvtransb iband))) ∧
    ((1 / xmus + 1 / xmuv) * uwv ≤ 1e-6 →
      (comptg iband xmus xmuv uoz uwv atm_pres ogtransa1 ogtransb0 ogtransb1
          wvtransa wvtransb oztransa).tgwv = 1) ∧
    ((1 / xmus + 1 / xmuv) * uwv / 2 > 1e-6 →
      (comptg iband xmus xmuv uoz uwv atm_pres ogtransa1 ogtransb0 ogtransb1
          wvtransa wvtransb oztransa).tgwvhalf
        = Real.exp (-(wvtransa iband) *
            ((1 / xmus + 1 / xmuv) * uwv / 2) ^ (wvtransb iband))) ∧
    ((1 / xmus + 1 / xmuv) * uwv / 2 ≤ 1e-6 →
      (comptg iband xmus xmuv uoz uwv atm_pres ogtransa1 ogtransb0 ogtransb1
          wvtransa wvtransb oztransa).tgwvhalf = 1) ∧
    (comptg iband xmus xmuv uoz uwv atm_pres ogtransa1 ogtransb0 ogtransb1
        wvtransa wvtransb oztransa).tgog
      = Real.exp (-(ogtransa1 iband * atm_pres) *
          (1 / xmus + 1 / xmuv) ^
            Real.exp (-(ogtransb0 iband + ogtransb1 iband * atm_pres))) := by
  have hhalf : (1 / xmus + 1 / xmuv) * uwv * 0.5 = (1 / xmus + 1 / xmuv) * uwv / 2 := by
    ring
  refine ⟨rfl, ?_, ?_, ?_, ?_, rfl⟩
  · intro h
    simp only [comptg]
    rw [if_pos h]
  · intro h
    simp only [comptg]
    rw [if_neg (not_lt.mpr h)]
  · intro h
    simp only [comptg, hhalf]
    rw [if_pos h]
  · intro h
    simp only [comptg, hhalf]
    rw [if_neg (not_lt.mpr h)]

/-- Witness for C5 at concrete inputs: both water-vapor thresholds are
exercised (`uwv = 1` takes the formula branches, `uwv = 0` the constant-1
branches). -/
theorem C5_comptg_formulas_witness :
    (comptg 0 1 1 1 1 1 (fun _ => 1) (fun _ => 1) (fun _ => 1) (fun _ => 1)
        (fun _ => 1) (fun _ => 1)).tgwv
      = Real.exp (-(1 : ℝ) * ((1 / (1:ℝ) + 1 / 1) * 1) ^ ((1:ℝ))) ∧
    (comptg 0 1 1 1 1 1 (fun _ => 1) (fun _ => 1) (fun _ => 1) (fun _ => 1)
        (fun _ => 1) (fun _ => 1)).tgwvhalf
      = Real.exp (-(1 : ℝ) * ((1 / (1:ℝ) + 1 / 1) * 1 / 2) ^ ((1:ℝ))) ∧
    (comptg 0 1 1 1 0 1 (fun _ => 1) (fun _ => 1) (fun _ => 1) (fun _ => 1)
        (fun _ => 1) (fun _ => 1)).tgwv = 1 ∧
    (comptg 0 1 1 1 0 1 (fun _ => 1) (fun _ => 1) (fun _ => 1) (fun _ => 1)
        (fun _ => 1) (fun _ => 1)).tgwvhalf = 1 := by
  refine ⟨?_, ?_, ?_, ?_⟩
  · exact (C5_comptg_formulas 0 1 1 1 1 1 _ _ _ _ _ _).2.1 (by norm_num)
  · exact (C5_comptg_formulas 0 1 1 1 1 1 _ _ _ _ _ _).2.2.2.1 (by norm_num)
  · exact (C5_comptg_formulas 0 1 1 1 0 1 _ _ _ _ _ _).2.2.1 (by norm_num)
  · exact (C5_comptg_formulas 0 1 1 1 0 1 _ _ _ _ _ _).2.2.2.2.1 (by norm_num)

/-! ## Claim C2 — the solar-zenith domain check is the only failure path -/

/-- C2: `atmcorlamb2` fails exactly when the solar zenith angle strictly
exceeds `xtsmin` and the floor of `(xts - xtsmin)/xtsstep` exceeds 19; every
other input succeeds.  In particular `xts = 85`, `xtsmin = 0`, `xtsstep = 4`
fails. -/
theorem C2_error_exactly_on_sun_angle :
    (∀ (sat : Sat) (xts xtv xmus xmuv xfi cosxfi raot550nm : ℝ) (iband : ℤ)
        (pres : ℝ) (tpres aot550nm rolutt transt : ℤ → ℝ)
        (xtsstep xtsmin xtvstep xtvmin : ℝ)
        (sphalbt normext tsmax tsmin nbfic nbfi tts : ℤ → ℝ) (indts : ℤ → ℤ)
        (ttv : ℤ → ℝ) (uoz uwv : ℝ) (tauray : ℤ → ℝ)
        (ogtransa1 ogtransb0 ogtransb1 wvtransa wvtransb oztransa : ℤ → ℝ)
        (rotoa eps xtts0 xttv0 : ℝ),
      atmcorlamb2 sat xts xtv xmus xmuv xfi cosxfi raot550nm iband pres
          tpres aot550nm rolutt transt xtsstep xtsmin xtvstep xtvmin sphalbt
          normext tsmax tsmin nbfic nbfi tts indts ttv uoz uwv tauray ogtransa1
          ogtransb0 ogtransb1 wvtransa wvtransb oztransa rotoa eps xtts0 xttv0
        = none
      ↔ (xtsmin < xts ∧ 19 < ⌊(xts - xtsmin) / xtsstep⌋)) ∧
    atmcorlamb2 .landsat8 85 0 1 1 0 1 1 0 1013 (fun _ => 0) (fun _ => 0)
        (fun _ => 0) (fun _ => 0) 4 0 4 0 (fun _ => 0) (fun _ => 0) (fun _ => 0)
        (fun _ => 0) (fun _ => 0) (fun _ => 0) (fun _ => 0) (fun _ => 0)
        (fun _ => 0) 0 0 (fun _ => 0) (fun _ => 0) (fun _ => 0) (fun _ => 0)
        (fun _ => 0) (fun _ => 0) (fun _ => 0) 0 0 0 0 = none := by
  constructor
  · intro sat xts xtv xmus xmuv xfi cosxfi raot550nm iband pres tpres aot550nm
      rolutt transt xtsstep xtsmin xtvstep xtvmin sphalbt normext tsmax tsmin
      nbfic nbfi tts indts ttv uoz uwv tauray ogtransa1 ogtransb0 ogtransb1
      wvtransa wvtransb oztransa rotoa eps xtts0 xttv0
    rw [← sun_angle_index_gt19_iff xts xtsmin xtsstep]
    simp only [atmcorlamb2]
    split_ifs with h
    · simp [h]
    · simp [h]
  · simp only [atmcorlamb2]
    rw [if_pos]
    unfold sun_angle_index
    rw [if_neg (by norm_num)]
    have : ctrunc (((85:ℝ) - 0) / 4) = 21 := by
      apply ctrunc_eq_of_nonneg <;> norm_num
    rw [this]
    norm_num

/-! ## Claim C9 — scattering-angle bracket clamping -/

/-- C9 counterexample: with the stated invariant `nbfi ≥ 1` alone, corner
`(xtsmax, scaa, nbfi) = (100, 0, 1)` is clamped to `isca = 0`, violating the
claimed lower bound `1 ≤ isca`. -/
theorem C9_isca_counterexample :
    (1:ℝ) ≤ 1 ∧ isca_clamped 100 0 1 = 0 ∧ ¬ (1 ≤ isca_clamped 100 0 1) := by
  have hpre : isca_pre 100 0 = 26 := by
    simp only [isca_pre]
    have : ctrunc (((100:ℝ) - 0) * 0.25 + 1) = 26 := by
      apply ctrunc_eq_of_nonneg <;> norm_num
    rw [this]
    norm_num
  have hkeep : ¬ isca_keep 100 0 1 := by
    unfold isca_keep
    rw [hpre]
    norm_num
  have hval : isca_clamped 100 0 1 = 0 := by
    unfold isca_clamped
    rw [if_neg hkeep]
    apply ctrunc_eq_of_nonneg <;> norm_num
  exact ⟨le_refl 1, hval, by rw [hval]; norm_num⟩

/-- C9 amended: the claimed bounds `1 ≤ isca ≤ nbfi - 1` hold under the
strengthened invariant `nbfi ≥ 2` (with `nbfi = 1` the clamp produces
`isca = 0`), for every scattering angle and corner. -/
theorem C9_isca_bounds_amended (xtsmaxi scaa nbfii : ℝ) (h2 : 2 ≤ nbfii) :
    1 ≤ isca_clamped xtsmaxi scaa nbfii ∧
      ((isca_clamped xtsmaxi scaa nbfii : ℝ) ≤ nbfii - 1) := by
  have hpre : 1 ≤ isca_pre xtsmaxi scaa := by
    simp only [isca_pre]
    split_ifs with h
    · exact le_refl 1
    · omega
  unfold isca_clamped
  split_ifs with hk
  · refine ⟨hpre, ?_⟩
    unfold isca_keep at hk
    linarith
  · have h1 : (0:ℝ) ≤ nbfii - 1 := by linarith
    rw [ctrunc_of_nonneg h1]
    constructor
    · exact Int.le_floor.mpr (by push_cast; linarith)
    · exact_mod_cast Int.floor_le (nbfii - 1)

/-- Witness for the amended C9 bounds at `nbfi = 3`. -/
theorem C9_isca_bounds_amended_witness :
    1 ≤ isca_clamped 100 0 3 ∧ ((isca_clamped 100 0 3 : ℝ) ≤ 3 - 1) :=
  C9_isca_bounds_amended 100 0 3 (by norm_num)

/-! ## Claim C4 — angstrom adjustment of the AOT query value -/

/-- C4 counterexample: at `eps = 0`, `iband = 0` (inside the extinction-aware
set) and `raot550nm = 10`, with a caller bound of `1`, the full-inversion
solver's AOT query value is the *unclamped* adjusted value `10`, while the
coefficient-fit variant clamps the same adjustment to `1`: `atmcorlamb2`
applies no caller-supplied upper bound before its bracketing scan. -/
theorem C4_no_clamp_counterexample :
    atmcorlamb2_mraot .landsat8 0 0 10 (fun _ => 1) = 10 ∧
    atmcorlamb2_new_mraot .landsat8 0 0 10 1 1 = 1 ∧
    ¬ (atmcorlamb2_mraot .landsat8 0 0 10 (fun _ => 1) ≤ 1) := by
  have hcond : ¬ ((0:ℝ) < 0 ∨ (0:ℤ) > max_band_indx .landsat8) := by
    push_neg
    constructor <;> norm_num [max_band_indx]
  have hval : atmcorlamb2_mraot .landsat8 0 0 10 (fun _ => 1) = 10 := by
    unfold atmcorlamb2_mraot
    rw [if_neg hcond]
    rw [neg_zero, Real.rpow_zero]
    norm_num
  refine ⟨hval, ?_, by rw [hval]; norm_num⟩
  simp only [atmcorlamb2_new_mraot]
  rw [if_neg hcond, neg_zero, Real.rpow_zero]
  norm_num

/-- C4 amended: in both solver variants the sentinel (`eps < 0`) or an
out-of-set band leaves the AOT value unchanged, and otherwise the value is
`(raot550nm/normext_corner)·(lambda[iband]/0.55)^(-eps)`; only
`atmcorlamb2_new` then clamps it to the caller-supplied upper bound
(`roatm_upper`) — `atmcorlamb2` takes no upper bound and uses the unclamped
value in its bracketing scan. -/
theorem C4_aot_adjustment_amended (sat : Sat) (eps : ℝ) (iband : ℤ)
    (raot550nm normext_ib_0_3 roatm_upper : ℝ) (normext : ℤ → ℝ) :
    (eps < 0 ∨ iband > max_band_indx sat →
      atmcorlamb2_mraot sat eps iband raot550nm normext = raot550nm ∧
      atmcorlamb2_new_mraot sat eps iband raot550nm normext_ib_0_3 roatm_upper
        = if raot550nm ≥ roatm_upper then roatm_upper else raot550nm) ∧
    (¬ (eps < 0 ∨ iband > max_band_indx sat) →
      atmcorlamb2_mraot sat eps iband raot550nm normext
        = (raot550nm / normext (iband * (NPRES_VALS * NAOT_VALS) + 3)) *
            ((lambda_of sat).getD iband.toNat 0 * (1 / 0.55)) ^ (-eps) ∧
      atmcorlamb2_new_mraot sat eps iband raot550nm normext_ib_0_3 roatm_upper
        = (if (raot550nm / normext_ib_0_3) *
                ((lambda_of sat).getD iband.toNat 0 * (1 / 0.55)) ^ (-eps)
              ≥ roatm_upper
           then roatm_upper
           else (raot550nm / normext_ib_0_3) *
                ((lambda_of sat).getD iband.toNat 0 * (1 / 0.55)) ^ (-eps))) := by
  constructor
  · intro h
    constructor
    · unfold atmcorlamb2_mraot
      rw [if_pos h]
    · unfold atmcorlamb2_new_mraot
      rw [if_pos h]
  · intro h
    constructor
    · unfold atmcorlamb2_mraot
      rw [if_neg h]
    · unfold atmcorlamb2_new_mraot
      rw [if_neg h]

/-- Witness for the amended C4 at the `eps = -1` sentinel: the AOT value is
unchanged in `atmcorlamb2` and only bound-clamped in `atmcorlamb2_new`. -/
theorem C4_aot_adjustment_amended_witness :
    atmcorlamb2_mraot .landsat8 (-1) 0 5 (fun _ => 1) = 5 ∧
    atmcorlamb2_new_mraot .landsat8 (-1) 0 5 1 3 = 3 := by
  have h := (C4_aot_adjustment_amended .landsat8 (-1) 0 5 1 3 (fun _ => 1)).1
    (Or.inl (by norm_num))
  refine ⟨h.1, ?_⟩
  rw [h.2, if_pos (by norm_num)]

/-! ## Claim C3 — the AOT bracket scan -/

/-- C3 counterexample: on the strictly increasing table `aot550nm[i] = i` with
query AOT `3/2`, the code's scan (`atmc_iaot1`, last index whose value is
*exceeded by* the query) gives `1`, whereas the spec's wording (last index
whose value *exceeds* the query, `spec_aot_scan`) gives `20`. -/
theorem C3_aot_scan_counterexample :
    atmc_iaot1 (3/2) (fun i => (i : ℝ)) = 1 ∧
    spec_aot_scan (fun i => (i : ℝ)) (3/2) = 20 ∧
    atmc_iaot1 (3/2) (fun i => (i : ℝ)) ≠ spec_aot_scan (fun i => (i : ℝ)) (3/2) := by
  have hcode : atmc_iaot1 (3/2) (fun i => (i : ℝ)) = 1 := by
    unfold atmc_iaot1
    have h := scan_last_threshold
      (fun iaot => (3:ℝ)/2 > (((iaot : ℕ) : ℤ) : ℝ)) (k := 2) (n := 21)
      (by norm_num)
      (fun j hj => by
        constructor
        · intro hlt
          have hlt' : ((j : ℤ) : ℝ) < 3/2 := hlt
          by_contra hc
          push_neg at hc
          have h2 : (2:ℝ) ≤ ((j : ℤ) : ℝ) := by exact_mod_cast hc
          linarith
        · intro hlt
          have h1 : j ≤ 1 := by omega
          have h1' : ((j : ℤ) : ℝ) ≤ 1 := by exact_mod_cast h1
          show ((j : ℤ) : ℝ) < 3/2
          linarith)
    rw [h]
    norm_num
  have hspec : spec_aot_scan (fun i => (i : ℝ)) (3/2) = 20 := by
    unfold spec_aot_scan
    have hub : (20 : ℕ) ≤ scan_last (fun iaot => (((iaot : ℕ) : ℤ) : ℝ) > 3/2) 21 :=
      scan_last_is_ub _ (by norm_num) (by norm_num)
    have hlt : scan_last (fun iaot => (((iaot : ℕ) : ℤ) : ℝ) > 3/2) 21 < 21 :=
      scan_last_lt _ (by norm_num)
    have : scan_last (fun iaot => (((iaot : ℕ) : ℤ) : ℝ) > 3/2) 21 = 20 := by omega
    rw [this]
    norm_num
  exact ⟨hcode, hspec, by rw [hcode, hspec]; norm_num⟩

/-- C3 amended: `atmc_iaot1` selects the last index in `[0, 20]` whose table
value is strictly *below* the (adjusted) query AOT (`0` when there is none);
with `iaot2 = iaot1 + 1` the bracket therefore always has a valid upper
neighbor, for every query AOT. -/
theorem C3_aot_bracket_amended (q : ℝ) (aot550nm : ℤ → ℝ) :
    0 ≤ atmc_iaot1 q aot550nm ∧ atmc_iaot1 q aot550nm ≤ 20 ∧
    (atmc_iaot1 q aot550nm = 0 ∨ q > aot550nm (atmc_iaot1 q aot550nm)) ∧
    (∀ j : ℕ, j ≤ 20 → q > aot550nm (j : ℤ) → (j : ℤ) ≤ atmc_iaot1 q aot550nm) := by
  unfold atmc_iaot1
  refine ⟨Int.ofNat_nonneg _, ?_, ?_, ?_⟩
  · have := scan_last_lt (fun iaot => q > aot550nm ((iaot : ℕ) : ℤ)) (n := 21)
      (by norm_num)
    exact_mod_cast Nat.lt_succ_iff.mp this
  · rcases scan_last_mem (fun iaot => q > aot550nm ((iaot : ℕ) : ℤ)) 21 with h | h
    · left; exact_mod_cast h
    · right; exact_mod_cast h
  · intro j hj hq
    have := scan_last_is_ub (fun iaot => q > aot550nm ((iaot : ℕ) : ℤ))
      (n := 21) (j := j) (by omega) hq
    exact_mod_cast this

/-- Witness for the amended C3 on the table `aot550nm[i] = i` with query `3`:
the bracket index is within `[0,20]` and at least `2`. -/
theorem C3_aot_bracket_amended_witness :
    atmc_iaot1 3 (fun i => (i : ℝ)) ≤ 20 ∧
    (2 : ℤ) ≤ atmc_iaot1 3 (fun i => (i : ℝ)) :=
  ⟨(C3_aot_bracket_amended 3 (fun i => (i : ℝ))).2.1,
   (C3_aot_bracket_amended 3 (fun i => (i : ℝ))).2.2.2 2 (by norm_num) (by norm_num)⟩

/-! ## Claim C10 — out-of-domain view zenith is silently accepted -/

/-- C10: when the solar zenith passes the domain check but the view zenith
maps to a sun-angle index above 19, the `comptrans` call for the view angle
returns early with no output (`none`), yet `atmcorlamb2` still returns
`SUCCESS` (`some`) — no error is reported for the view angle. -/
theorem C10_view_angle_silent (sat : Sat) (xts xtv xmus xmuv xfi cosxfi raot550nm : ℝ)
    (iband : ℤ) (pres : ℝ) (tpres aot550nm rolutt transt : ℤ → ℝ)
    (xtsstep xtsmin xtvstep xtvmin : ℝ)
    (sphalbt normext tsmax tsmin nbfic nbfi tts : ℤ → ℝ) (indts : ℤ → ℤ)
    (ttv : ℤ → ℝ) (uoz uwv : ℝ) (tauray : ℤ → ℝ)
    (ogtransa1 ogtransb0 ogtransb1 wvtransa wvtransb oztransa : ℤ → ℝ)
    (rotoa eps xtts0 xttv0 : ℝ)
    (hs : ¬ sun_angle_index xts xtsmin xtsstep > 19)
    (hv : sun_angle_index xtv xtvmin xtvstep > 19) :
    comptrans (atmc_ip1 pres tpres) (atmc_ip1 pres tpres + 1)
        (atmc_iaot1 (atmcorlamb2_mraot sat eps iband raot550nm normext) aot550nm)
        (atmc_iaot1 (atmcorlamb2_mraot sat eps iband raot550nm normext) aot550nm + 1)
        xtv (atmcorlamb2_mraot sat eps iband raot550nm normext) iband pres tpres
        aot550nm transt xtvstep xtvmin tts = none ∧
    atmcorlamb2 sat xts xtv xmus xmuv xfi cosxfi raot550nm iband pres
        tpres aot550nm rolutt transt xtsstep xtsmin xtvstep xtvmin sphalbt
        normext tsmax tsmin nbfic nbfi tts indts ttv uoz uwv tauray ogtransa1
        ogtransb0 ogtransb1 wvtransa wvtransb oztransa rotoa eps xtts0 xttv0
      = some (atmcorlamb2_body sat xts xtv xmus xmuv xfi cosxfi raot550nm iband
        pres tpres aot550nm rolutt transt xtsstep xtsmin xtvstep xtvmin sphalbt
        normext tsmax tsmin nbfic nbfi tts indts ttv uoz uwv tauray ogtransa1
        ogtransb0 ogtransb1 wvtransa wvtransb oztransa rotoa eps xtts0 xttv0) := by
  constructor
  · simp only [comptrans]
    rw [if_pos hv]
  · simp only [atmcorlamb2]
    rw [if_neg hs]

/-- Witness for C10: view zenith 85° with table domain `[0°, 76°]` in 4°
steps, solar zenith 0° — `comptrans` yields no output, the solver succeeds. -/
theorem C10_view_angle_silent_witness :
    comptrans (atmc_ip1 1013 (fun _ => 0)) (atmc_ip1 1013 (fun _ => 0) + 1)
        (atmc_iaot1 (atmcorlamb2_mraot .landsat8 (-1) 0 1 (fun _ => 1)) (fun _ => 0))
        (atmc_iaot1 (atmcorlamb2_mraot .landsat8 (-1) 0 1 (fun _ => 1)) (fun _ => 0) + 1)
        85 (atmcorlamb2_mraot .landsat8 (-1) 0 1 (fun _ => 1)) 0 1013 (fun _ => 0)
        (fun _ => 0) (fun _ => 0) 4 0 (fun _ => 0) = none ∧
    atmcorlamb2 .landsat8 0 85 1 1 0 1 1 0 1013 (fun _ => 0) (fun _ => 0)
        (fun _ => 0) (fun _ => 0) 4 0 4 0 (fun _ => 0) (fun _ => 1) (fun _ => 0)
        (fun _ => 0) (fun _ => 0) (fun _ => 0) (fun _ => 0) (fun _ => 0)
        (fun _ => 0) 0 0 (fun _ => 0) (fun _ => 0) (fun _ => 0) (fun _ => 0)
        (fun _ => 0) (fun _ => 0) (fun _ => 0) 0 (-1) 0 0
      = some (atmcorlamb2_body .landsat8 0 85 1 1 0 1 1 0 1013 (fun _ => 0)
        (fun _ => 0) (fun _ => 0) (fun _ => 0) 4 0 4 0 (fun _ => 0) (fun _ => 1)
        (fun _ => 0) (fun _ => 0) (fun _ => 0) (fun _ => 0) (fun _ => 0)
        (fun _ => 0) (fun _ => 0) 0 0 (fun _ => 0) (fun _ => 0) (fun _ => 0)
        (fun _ => 0) (fun _ => 0) (fun _ => 0) (fun _ => 0) 0 (-1) 0 0) := by
  have h85 : sun_angle_index 85 0 4 > 19 := by
    unfold sun_angle_index
    rw [if_neg (by norm_num)]
    have : ctrunc (((85:ℝ) - 0) / 4) = 21 := by
      apply ctrunc_eq_of_nonneg <;> norm_num
    rw [this]
    norm_num
  have h0 : ¬ sun_angle_index 0 0 4 > 19 := by
    unfold sun_angle_index
    rw [if_pos (by norm_num)]
    norm_num
  exact C10_view_angle_silent .landsat8 0 85 1 1 0 1 1 0 1013 (fun _ => 0)
    (fun _ => 0) (fun _ => 0) (fun _ => 0) 4 0 4 0 (fun _ => 0) (fun _ => 1)
    (fun _ => 0) (fun _ => 0) (fun _ => 0) (fun _ => 0) (fun _ => 0)
    (fun _ => 0) (fun _ => 0) 0 0 (fun _ => 0) (fun _ => 0) (fun _ => 0)
    (fun _ => 0) (fun _ => 0) (fun _ => 0) (fun _ => 0) 0 (-1) 0 0 h0 h85

/-! ## Claim C7 — exact pressure grid points degenerate to one corner -/

/-- When the query pressure equals grid entry `k` of a strictly descending
pressure table, the pressure scan selects `k - 1` (`0` for `k = 0`). -/
theorem atmc_ip1_gridpoint (k : ℕ) (hk : k ≤ 6) (tpres : ℤ → ℝ)
    (hdesc : ∀ i j : ℕ, i < j → j ≤ 6 → tpres (j : ℤ) < tpres (i : ℤ)) :
    atmc_ip1 (tpres (k : ℤ)) tpres = ((k - 1 : ℕ) : ℤ) := by
  unfold atmc_ip1
  have h := scan_last_threshold (fun ip => tpres (k : ℤ) < tpres ((ip : ℕ) : ℤ))
    (k := k) (n := 6) hk
    (fun j hj => by
      constructor
      · intro hlt
        have hlt' : tpres (k : ℤ) < tpres ((j : ℕ) : ℤ) := hlt
        by_contra hc
        push_neg at hc
        rcases Nat.lt_or_ge k j with h' | h'
        · have := hdesc k j h' (by omega)
          linarith
        · have hkj : k = j := by omega
          subst hkj
          exact lt_irrefl _ hlt'
      · intro hjk
        exact hdesc j k hjk hk)
  rw [h]

/-- C7: for a query pressure equal to a grid entry of the strictly descending
pressure table, the bracket chosen by `atmcorlamb2` produces a pressure
fraction `dpres` that is exactly 0 or 1, and each composer output —
spherical albedo, transmission (when it produces one), and reflectance —
equals the single-pressure-corner value at that grid index exactly. -/
theorem C7_pressure_gridpoint (k : ℕ) (hk : k ≤ 6) (tpres : ℤ → ℝ)
    (hdesc : ∀ i j : ℕ, i < j → j ≤ 6 → tpres (j : ℤ) < tpres (i : ℤ))
    (pres : ℝ) (hpres : pres = tpres (k : ℤ))
    (iaot1 iaot2 iband : ℤ) (raot550nm : ℝ)
    (aot550nm sphalbt normext transt : ℤ → ℝ)
    (xts xtsstep xtsmin : ℝ) (tts : ℤ → ℝ)
    (xtv xmus xmuv cosxfi : ℝ) (rolutt tsmax tsmin nbfic nbfi : ℤ → ℝ)
    (indts : ℤ → ℤ) (ttv : ℤ → ℝ) (xtvstep xtvmin : ℝ) (its itv : ℤ) :
    ((pres - tpres (atmc_ip1 pres tpres)) /
        (tpres (atmc_ip1 pres tpres + 1) - tpres (atmc_ip1 pres tpres)) = 0 ∨
      (pres - tpres (atmc_ip1 pres tpres)) /
        (tpres (atmc_ip1 pres tpres + 1) - tpres (atmc_ip1 pres tpres)) = 1) ∧
    compsalb (atmc_ip1 pres tpres) (atmc_ip1 pres tpres + 1) iaot1 iaot2
        raot550nm iband pres tpres aot550nm sphalbt normext
      = compsalb_pcorner (k : ℤ) iaot1 iaot2 raot550nm iband aot550nm sphalbt ∧
    (∀ v, comptrans (atmc_ip1 pres tpres) (atmc_ip1 pres tpres + 1) iaot1 iaot2
        xts raot550nm iband pres tpres aot550nm transt xtsstep xtsmin tts
          = some v →
      v = comptrans_pcorner (k : ℤ) iaot1 iaot2 raot550nm iband aot550nm transt
        (sun_angle_index xts xtsmin xtsstep)
        ((xts - tts (sun_angle_index xts xtsmin xtsstep)) * 0.25)) ∧
    comproatm (atmc_ip1 pres tpres) (atmc_ip1 pres tpres + 1) iaot1 iaot2
        xts xtv xmus xmuv cosxfi raot550nm iband pres tpres aot550nm rolutt
        tsmax tsmin nbfic nbfi tts indts ttv xtsstep xtvstep xtvmin its itv
      = comproatm_pcorner (k : ℤ) iaot1 iaot2 raot550nm iband rolutt tsmax tsmin
          nbfic nbfi
          (Real.arccos (-(xmus * xmuv) -
            cosxfi * Real.sqrt (1 - xmus * xmus) * Real.sqrt (1 - xmuv * xmuv))
            * RAD2DEG)
          indts its itv
          ((tts (its + 1) - xts) / (tts (its + 1) - tts its))
          ((ttv ((itv + 1) * NSOLAR_ZEN_VALS + its) - xtv) /
            (ttv ((itv + 1) * NSOLAR_ZEN_VALS + its) - ttv (itv * NSOLAR_ZEN_VALS + its))) := by
  have hbase :
      ((pres - tpres (atmc_ip1 pres tpres)) /
        (tpres (atmc_ip1 pres tpres + 1) - tpres (atmc_ip1 pres tpres)) = 0 ∨
       (pres - tpres (atmc_ip1 pres tpres)) /
        (tpres (atmc_ip1 pres tpres + 1) - tpres (atmc_ip1 pres tpres)) = 1) ∧
      ∀ f : ℤ → ℝ,
        f (atmc_ip1 pres tpres) +
          (f (atmc_ip1 pres tpres + 1) - f (atmc_ip1 pres tpres)) *
            ((pres - tpres (atmc_ip1 pres tpres)) /
              (tpres (atmc_ip1 pres tpres + 1) - tpres (atmc_ip1 pres tpres)))
          = f (k : ℤ) := by
    rcases Nat.eq_zero_or_pos k with hk0 | hkpos
    · subst hk0
      have hp1 : atmc_ip1 pres tpres = 0 := by
        rw [hpres]
        have := atmc_ip1_gridpoint 0 (by omega) tpres hdesc
        simpa using this
      have hdp : (pres - tpres (atmc_ip1 pres tpres)) /
          (tpres (atmc_ip1 pres tpres + 1) - tpres (atmc_ip1 pres tpres)) = 0 := by
        rw [hp1]
        have hnum : pres - tpres 0 = 0 := by
          rw [hpres]
          norm_num
        rw [hnum, zero_div]
      refine ⟨Or.inl hdp, fun f => ?_⟩
      rw [hdp, hp1]
      norm_num
    · have hcast : ((k - 1 : ℕ) : ℤ) = (k : ℤ) - 1 := by omega
      have hp1 : atmc_ip1 pres tpres = (k : ℤ) - 1 := by
        rw [hpres, atmc_ip1_gridpoint k hk tpres hdesc, hcast]
      have hlt : tpres (k : ℤ) < tpres ((k : ℤ) - 1) := by
        have := hdesc (k - 1) k (by omega) hk
        have hc2 : ((k - 1 : ℕ) : ℤ) = (k : ℤ) - 1 := by omega
        rwa [hc2] at this
      have hdp : (pres - tpres (atmc_ip1 pres tpres)) /
          (tpres (atmc_ip1 pres tpres + 1) - tpres (atmc_ip1 pres tpres)) = 1 := by
        rw [hp1, sub_add_cancel, hpres]
        exact div_self (by intro h0; rw [sub_eq_zero] at h0; linarith)
      refine ⟨Or.inr hdp, fun f => ?_⟩
      rw [hdp, hp1, sub_add_cancel]
      ring
  refine ⟨hbase.1, ?_, ?_, ?_⟩
  · simp only [compsalb]
    exact hbase.2 (fun ip => compsalb_pcorner ip iaot1 iaot2 raot550nm iband
      aot550nm sphalbt)
  · intro v hv
    simp only [comptrans] at hv
    split_ifs at hv with h
    have hv' := Option.some.inj hv
    rw [← hv']
    exact hbase.2 (fun ip => comptrans_pcorner ip iaot1 iaot2 raot550nm iband
      aot550nm transt (sun_angle_index xts xtsmin xtsstep)
      ((xts - tts (sun_angle_index xts xtsmin xtsstep)) * 0.25))
  · simp only [comproatm]
    exact hbase.2 (fun ip => comproatm_pcorner ip iaot1 iaot2 raot550nm iband
      rolutt tsmax tsmin nbfic nbfi
      (Real.arccos (-(xmus * xmuv) -
        cosxfi * Real.sqrt (1 - xmus * xmus) * Real.sqrt (1 - xmuv * xmuv))
        * RAD2DEG)
      indts its itv
      ((tts (its + 1) - xts) / (tts (its + 1) - tts its))
      ((ttv ((itv + 1) * NSOLAR_ZEN_VALS + its) - xtv) /
        (ttv ((itv + 1) * NSOLAR_ZEN_VALS + its) - ttv (itv * NSOLAR_ZEN_VALS + its))))

/-- Witness for C7: pressure table `tpres[i] = 7 - i`, query `pres = 5` at
grid index `k = 2` — the spherical-albedo composer equals the single corner. -/
theorem C7_pressure_gridpoint_witness :
    compsalb (atmc_ip1 5 (fun i => 7 - (i : ℝ))) (atmc_ip1 5 (fun i => 7 - (i : ℝ)) + 1)
        0 1 1 0 5 (fun i => 7 - (i : ℝ)) (fun _ => 0) (fun _ => 0) (fun _ => 0)
      = compsalb_pcorner 2 0 1 1 0 (fun _ => 0) (fun _ => 0) := by
  have hdesc : ∀ i j : ℕ, i < j → j ≤ 6 →
      (fun i : ℤ => 7 - (i : ℝ)) (j : ℤ) < (fun i : ℤ => 7 - (i : ℝ)) (i : ℤ) := by
    intro i j hij hj
    have : ((i : ℤ) : ℝ) < ((j : ℤ) : ℝ) := by exact_mod_cast hij
    simpa using this
  exact (C7_pressure_gridpoint 2 (by norm_num) (fun i => 7 - (i : ℝ)) hdesc 5
    (by norm_num) 0 1 0 1 (fun _ => 0) (fun _ => 0) (fun _ => 0) (fun _ => 0)
    0 4 0 (fun _ => 0) 0 1 1 1 (fun _ => 0) (fun _ => 0) (fun _ => 0)
    (fun _ => 0) (fun _ => 0) (fun _ => 0) (fun _ => 0) 4 0 0 0).2.1

/-! ## Claim C1 — composition of the full-inversion solver outputs -/

/-- C1: whenever `atmcorlamb2` returns `SUCCESS`, its outputs satisfy exactly
the stated composition: `tgo = tgog·tgoz`; the returned `roatm` is
`(roatm_interp - rorayp)·tgwvhalf + rorayp` with `roatm_interp` the
LUT-interpolated intrinsic reflectance (`comproatm`) and `rorayp` the Rayleigh
reflectance (`local_chand`); `ttatmg = (xtts·xttv)·tgwv` with the two
`comptrans` transmittances; and `roslamb = r / (ttatmg + satm·r)` with
`r = rotoa/tgo - roatm`. -/
theorem C1_solver_composition (sat : Sat)
    (xts xtv xmus xmuv xfi cosxfi raot550nm : ℝ) (iband : ℤ) (pres : ℝ)
    (tpres aot550nm rolutt transt : ℤ → ℝ) (xtsstep xtsmin xtvstep xtvmin : ℝ)
    (sphalbt normext tsmax tsmin nbfic nbfi tts : ℤ → ℝ) (indts : ℤ → ℤ)
    (ttv : ℤ → ℝ) (uoz uwv : ℝ) (tauray : ℤ → ℝ)
    (ogtransa1 ogtransb0 ogtransb1 wvtransa wvtransb oztransa : ℤ → ℝ)
    (rotoa eps xtts0 xttv0 : ℝ) (out : AtmOut)
    (mr : ℝ) (hmr : mr = atmcorlamb2_mraot sat eps iband raot550nm normext)
    (p1 : ℤ) (hp1 : p1 = atmc_ip1 pres tpres)
    (a1 : ℤ) (ha1 : a1 = atmc_iaot1 mr aot550nm)
    (tg : TgOut) (htg : tg = comptg iband xmus xmuv uoz uwv
      (pres * ONE_DIV_ATMOS_PRES_0) ogtransa1 ogtransb0 ogtransb1 wvtransa
      wvtransb oztransa)
    (h : atmcorlamb2 sat xts xtv xmus xmuv xfi cosxfi raot550nm iband pres
      tpres aot550nm rolutt transt xtsstep xtsmin xtvstep xtvmin sphalbt
      normext tsmax tsmin nbfic nbfi tts indts ttv uoz uwv tauray ogtransa1
      ogtransb0 ogtransb1 wvtransa wvtransb oztransa rotoa eps xtts0 xttv0
        = some out) :
    out.tgo = tg.tgog * tg.tgoz ∧
    out.xrorayp = local_chand xfi xmuv xmus
      (tauray iband * (pres * ONE_DIV_ATMOS_PRES_0)) ∧
    out.roatm = (comproatm p1 (p1 + 1) a1 (a1 + 1) xts xtv xmus xmuv cosxfi mr
        iband pres tpres aot550nm rolutt tsmax tsmin nbfic nbfi tts indts ttv
        xtsstep xtvstep xtvmin (sun_angle_index xts xtsmin xtsstep)
        (view_angle_index xtv xtvmin xtvstep) - out.xrorayp) * tg.tgwvhalf
      + out.xrorayp ∧
    out.satm = compsalb p1 (p1 + 1) a1 (a1 + 1) mr iband pres tpres aot550nm
      sphalbt normext ∧
    out.ttatmg = (((comptrans p1 (p1 + 1) a1 (a1 + 1) xts mr iband pres tpres
        aot550nm transt xtsstep xtsmin tts).getD xtts0) *
      ((comptrans p1 (p1 + 1) a1 (a1 + 1) xtv mr iband pres tpres aot550nm
        transt xtvstep xtvmin tts).getD xttv0)) * tg.tgwv ∧
    out.roslamb = (rotoa / out.tgo - out.roatm) /
      (out.ttatmg + out.satm * (rotoa / out.tgo - out.roatm)) := by
  subst hmr hp1 ha1 htg
  simp only [atmcorlamb2] at h
  split_ifs at h with hc
  have hb := Option.some.inj h
  subst hb
  exact ⟨rfl, rfl, rfl, rfl, rfl, rfl⟩

/-- Witness for C1 at a concrete in-domain input. -/
theorem C1_solver_composition_witness :
    (atmcorlamb2_body .landsat8 0 0 1 1 0 1 1 0 1013 (fun _ => 0) (fun _ => 0)
        (fun _ => 0) (fun _ => 0) 4 0 4 0 (fun _ => 0) (fun _ => 1) (fun _ => 0)
        (fun _ => 0) (fun _ => 0) (fun _ => 0) (fun _ => 0) (fun _ => 0)
        (fun _ => 0) 0 0 (fun _ => 0) (fun _ => 0) (fun _ => 0) (fun _ => 0)
        (fun _ => 0) (fun _ => 0) (fun _ => 0) 1 (-1) 0 0).tgo
      = (comptg 0 1 1 0 0 (1013 * ONE_DIV_ATMOS_PRES_0) (fun _ => 0)
          (fun _ => 0) (fun _ => 0) (fun _ => 0) (fun _ => 0) (fun _ => 0)).tgog *
        (comptg 0 1 1 0 0 (1013 * ONE_DIV_ATMOS_PRES_0) (fun _ => 0)
          (fun _ => 0) (fun _ => 0) (fun _ => 0) (fun _ => 0) (fun _ => 0)).tgoz := by
  have h0 : ¬ sun_angle_index 0 0 4 > 19 := by
    unfold sun_angle_index
    rw [if_pos (by norm_num)]
    norm_num
  have h : atmcorlamb2 .landsat8 0 0 1 1 0 1 1 0 1013 (fun _ => 0) (fun _ => 0)
      (fun _ => 0) (fun _ => 0) 4 0 4 0 (fun _ => 0) (fun _ => 1) (fun _ => 0)
      (fun _ => 0) (fun _ => 0) (fun _ => 0) (fun _ => 0) (fun _ => 0)
      (fun _ => 0) 0 0 (fun _ => 0) (fun _ => 0) (fun _ => 0) (fun _ => 0)
      (fun _ => 0) (fun _ => 0) (fun _ => 0) 1 (-1) 0 0
        = some (atmcorlamb2_body .landsat8 0 0 1 1 0 1 1 0 1013 (fun _ => 0)
      (fun _ => 0) (fun _ => 0) (fun _ => 0) 4 0 4 0 (fun _ => 0) (fun _ => 1)
      (fun _ => 0) (fun _ => 0) (fun _ => 0) (fun _ => 0) (fun _ => 0)
      (fun _ => 0) (fun _ => 0) 0 0 (fun _ => 0) (fun _ => 0) (fun _ => 0)
      (fun _ => 0) (fun _ => 0) (fun _ => 0) (fun _ => 0) 1 (-1) 0 0) := by
    simp only [atmcorlamb2]
    rw [if_neg h0]
  exact (C1_solver_composition .landsat8 0 0 1 1 0 1 1 0 1013 (fun _ => 0)
    (fun _ => 0) (fun _ => 0) (fun _ => 0) 4 0 4 0 (fun _ => 0) (fun _ => 1)
    (fun _ => 0) (fun _ => 0) (fun _ => 0) (fun _ => 0) (fun _ => 0)
    (fun _ => 0) (fun _ => 0) 0 0 (fun _ => 0) (fun _ => 0) (fun _ => 0)
    (fun _ => 0) (fun _ => 0) (fun _ => 0) (fun _ => 0) 1 (-1) 0 0 _
    _ rfl _ rfl _ rfl _ rfl h).1

/-! ## Claim C6 — fabricated all-zero tables -/

theorem zfun_eq : ∀ k : ℤ, (fun _ : ℤ => (0:ℝ)) k = 0 := fun _ => rfl

theorem comptg_tgwvhalf_one {iband : ℤ} {xmus xmuv uoz uwv atm_pres : ℝ}
    {ogtransa1 ogtransb0 ogtransb1 wvtransa wvtransb oztransa : ℤ → ℝ}
    (h : ¬ ((1 / xmus + 1 / xmuv) * uwv * 0.5 > 1e-6)) :
    (comptg iband xmus xmuv uoz uwv atm_pres ogtransa1 ogtransb0 ogtransb1
      wvtransa wvtransb oztransa).tgwvhalf = 1 := by
  simp only [comptg]
  rw [if_neg h]

/-- C6 amended: with identically zero reflectance, transmission, and albedo
tables and in-domain angles, `atmcorlamb2` succeeds, its interpolated
quantities collapse (`satm = ttatmg = 0`, and `roatm = 0` whenever
`tgwvhalf = 1`, e.g. for negligible water vapor), so the *pre-normalization*
reflectance `rotoa/tgo − roatm` equals `rotoa/tgo` exactly; but the final
normalization divides by `ttatmg + satm·roslamb = 0`, so the returned
`roslamb` is the zero-denominator division (0 in this exact embedding), not
`rotoa/tgo`. -/
theorem C6_zero_tables_amended (sat : Sat)
    (xts xtv xmus xmuv xfi cosxfi raot550nm : ℝ) (iband : ℤ) (pres : ℝ)
    (tpres aot550nm : ℤ → ℝ) (xtsstep xtsmin xtvstep xtvmin : ℝ)
    (normext tsmax tsmin nbfic nbfi tts : ℤ → ℝ) (indts : ℤ → ℤ)
    (ttv : ℤ → ℝ) (uoz uwv : ℝ) (tauray : ℤ → ℝ)
    (ogtransa1 ogtransb0 ogtransb1 wvtransa wvtransb oztransa : ℤ → ℝ)
    (rotoa eps xtts0 xttv0 : ℝ)
    (hs : ¬ sun_angle_index xts xtsmin xtsstep > 19)
    (hv : ¬ sun_angle_index xtv xtvmin xtvstep > 19)
    (hwv : ¬ ((1 / xmus + 1 / xmuv) * uwv * 0.5 > 1e-6))
    (out : AtmOut)
    (h : atmcorlamb2 sat xts xtv xmus xmuv xfi cosxfi raot550nm iband pres
      tpres aot550nm (fun _ => 0) (fun _ => 0) xtsstep xtsmin xtvstep xtvmin
      (fun _ => 0) normext tsmax tsmin nbfic nbfi tts indts ttv uoz uwv tauray
      ogtransa1 ogtransb0 ogtransb1 wvtransa wvtransb oztransa rotoa eps
      xtts0 xttv0 = some out) :
    out.roatm = 0 ∧ out.ttatmg = 0 ∧ out.satm = 0 ∧
    rotoa / out.tgo - out.roatm = rotoa / out.tgo ∧ out.roslamb = 0 := by
  simp only [atmcorlamb2] at h
  split_ifs at h with hc
  have hb := Option.some.inj h
  subst hb
  have hroatm : (atmcorlamb2_body sat xts xtv xmus xmuv xfi cosxfi raot550nm
      iband pres tpres aot550nm (fun _ => 0) (fun _ => 0) xtsstep xtsmin xtvstep
      xtvmin (fun _ => 0) normext tsmax tsmin nbfic nbfi tts indts ttv uoz uwv
      tauray ogtransa1 ogtransb0 ogtransb1 wvtransa wvtransb oztransa rotoa eps
      xtts0 xttv0).roatm = 0 := by
    simp only [atmcorlamb2_body]
    rw [comproatm_zero zfun_eq, comptg_tgwvhalf_one hwv]
    ring
  have httatmg : (atmcorlamb2_body sat xts xtv xmus xmuv xfi cosxfi raot550nm
      iband pres tpres aot550nm (fun _ => 0) (fun _ => 0) xtsstep xtsmin xtvstep
      xtvmin (fun _ => 0) normext tsmax tsmin nbfic nbfi tts indts ttv uoz uwv
      tauray ogtransa1 ogtransb0 ogtransb1 wvtransa wvtransb oztransa rotoa eps
      xtts0 xttv0).ttatmg = 0 := by
    simp only [atmcorlamb2_body]
    rw [comptrans_zero zfun_eq hs, comptrans_zero zfun_eq hv]
    simp
  have hsatm : (atmcorlamb2_body sat xts xtv xmus xmuv xfi cosxfi raot550nm
      iband pres tpres aot550nm (fun _ => 0) (fun _ => 0) xtsstep xtsmin xtvstep
      xtvmin (fun _ => 0) normext tsmax tsmin nbfic nbfi tts indts ttv uoz uwv
      tauray ogtransa1 ogtransb0 ogtransb1 wvtransa wvtransb oztransa rotoa eps
      xtts0 xttv0).satm = 0 := by
    simp only [atmcorlamb2_body]
    rw [compsalb_zero zfun_eq]
  have hroslamb : (atmcorlamb2_body sat xts xtv xmus xmuv xfi cosxfi raot550nm
      iband pres tpres aot550nm (fun _ => 0) (fun _ => 0) xtsstep xtsmin xtvstep
      xtvmin (fun _ => 0) normext tsmax tsmin nbfic nbfi tts indts ttv uoz uwv
      tauray ogtransa1 ogtransb0 ogtransb1 wvtransa wvtransb oztransa rotoa eps
      xtts0 xttv0).roslamb = 0 := by
    simp only [atmcorlamb2_body]
    rw [comptrans_zero zfun_eq hs, comptrans_zero zfun_eq hv, compsalb_zero zfun_eq]
    simp
  exact ⟨hroatm, httatmg, hsatm, by rw [hroatm, sub_zero], hroslamb⟩

/-- Witness for the amended C6 at a concrete in-domain input with negligible
water vapor. -/
theorem C6_zero_tables_amended_witness :
    (atmcorlamb2_body .landsat8 0 0 1 1 0 1 1 0 1013 (fun _ => 0) (fun _ => 0)
        (fun _ => 0) (fun _ => 0) 4 0 4 0 (fun _ => 0) (fun _ => 1) (fun _ => 0)
        (fun _ => 0) (fun _ => 0) (fun _ => 0) (fun _ => 0) (fun _ => 0)
        (fun _ => 0) 0 0 (fun _ => 0) (fun _ => 0) (fun _ => 0) (fun _ => 0)
        (fun _ => 0) (fun _ => 0) (fun _ => 0) 2 (-1) 0 0).roslamb = 0 := by
  have h0 : ¬ sun_angle_index 0 0 4 > 19 := by
    unfold sun_angle_index
    rw [if_pos (by norm_num)]
    norm_num
  have h : atmcorlamb2 .landsat8 0 0 1 1 0 1 1 0 1013 (fun _ => 0) (fun _ => 0)
      (fun _ => 0) (fun _ => 0) 4 0 4 0 (fun _ => 0) (fun _ => 1) (fun _ => 0)
      (fun _ => 0) (fun _ => 0) (fun _ => 0) (fun _ => 0) (fun _ => 0)
      (fun _ => 0) 0 0 (fun _ => 0) (fun _ => 0) (fun _ => 0) (fun _ => 0)
      (fun _ => 0) (fun _ => 0) (fun _ => 0) 2 (-1) 0 0
        = some (atmcorlamb2_body .landsat8 0 0 1 1 0 1 1 0 1013 (fun _ => 0)
      (fun _ => 0) (fun _ => 0) (fun _ => 0) 4 0 4 0 (fun _ => 0) (fun _ => 1)
      (fun _ => 0) (fun _ => 0) (fun _ => 0) (fun _ => 0) (fun _ => 0)
      (fun _ => 0) (fun _ => 0) 0 0 (fun _ => 0) (fun _ => 0) (fun _ => 0)
      (fun _ => 0) (fun _ => 0) (fun _ => 0) (fun _ => 0) 2 (-1) 0 0) := by
    simp only [atmcorlamb2]
    rw [if_neg h0]
  exact (C6_zero_tables_amended .landsat8 0 0 1 1 0 1 1 0 1013 (fun _ => 0)
    (fun _ => 0) 4 0 4 0 (fun _ => 1) (fun _ => 0) (fun _ => 0) (fun _ => 0)
    (fun _ => 0) (fun _ => 0) (fun _ => 0) (fun _ => 0) 0 0 (fun _ => 0)
    (fun _ => 0) (fun _ => 0) (fun _ => 0) (fun _ => 0) (fun _ => 0)
    (fun _ => 0) 2 (-1) 0 0 h0 h0 (by norm_num) _ h).2.2.2.2

/-- C6 counterexample: a concrete in-domain input with all-zero tables on
which `atmcorlamb2` succeeds with `tgo = 1`, `rotoa = 1`, yet the returned
`roslamb` is `0`, not `rotoa/tgo = 1` — the final normalization divides by
`ttatmg + satm·roslamb = 0`. -/
theorem C6_zero_tables_counterexample :
    atmcorlamb2 .landsat8 0 0 1 1 0 1 1 0 1013 (fun _ => 0) (fun _ => 0)
        (fun _ => 0) (fun _ => 0) 4 0 4 0 (fun _ => 0) (fun _ => 1) (fun _ => 0)
        (fun _ => 0) (fun _ => 0) (fun _ => 0) (fun _ => 0) (fun _ => 0)
        (fun _ => 0) 0 0 (fun _ => 0) (fun _ => 0) (fun _ => 0) (fun _ => 0)
        (fun _ => 0) (fun _ => 0) (fun _ => 0) 1 (-1) 0 0
      = some (atmcorlamb2_body .landsat8 0 0 1 1 0 1 1 0 1013 (fun _ => 0)
        (fun _ => 0) (fun _ => 0) (fun _ => 0) 4 0 4 0 (fun _ => 0) (fun _ => 1)
        (fun _ => 0) (fun _ => 0) (fun _ => 0) (fun _ => 0) (fun _ => 0)
        (fun _ => 0) (fun _ => 0) 0 0 (fun _ => 0) (fun _ => 0) (fun _ => 0)
        (fun _ => 0) (fun _ => 0) (fun _ => 0) (fun _ => 0) 1 (-1) 0 0) ∧
    (atmcorlamb2_body .landsat8 0 0 1 1 0 1 1 0 1013 (fun _ => 0) (fun _ => 0)
        (fun _ => 0) (fun _ => 0) 4 0 4 0 (fun _ => 0) (fun _ => 1) (fun _ => 0)
        (fun _ => 0) (fun _ => 0) (fun _ => 0) (fun _ => 0) (fun _ => 0)
        (fun _ => 0) 0 0 (fun _ => 0) (fun _ => 0) (fun _ => 0) (fun _ => 0)
        (fun _ => 0) (fun _ => 0) (fun _ => 0) 1 (-1) 0 0).roslamb = 0 ∧
    (1:ℝ) / (atmcorlamb2_body .landsat8 0 0 1 1 0 1 1 0 1013 (fun _ => 0)
        (fun _ => 0) (fun _ => 0) (fun _ => 0) 4 0 4 0 (fun _ => 0) (fun _ => 1)
        (fun _ => 0) (fun _ => 0) (fun _ => 0) (fun _ => 0) (fun _ => 0)
        (fun _ => 0) (fun _ => 0) 0 0 (fun _ => 0) (fun _ => 0) (fun _ => 0)
        (fun _ => 0) (fun _ => 0) (fun _ => 0) (fun _ => 0) 1 (-1) 0 0).tgo = 1 ∧
    (atmcorlamb2_body .landsat8 0 0 1 1 0 1 1 0 1013 (fun _ => 0) (fun _ => 0)
        (fun _ => 0) (fun _ => 0) 4 0 4 0 (fun _ => 0) (fun _ => 1) (fun _ => 0)
        (fun _ => 0) (fun _ => 0) (fun _ => 0) (fun _ => 0) (fun _ => 0)
        (fun _ => 0) 0 0 (fun _ => 0) (fun _ => 0) (fun _ => 0) (fun _ => 0)
        (fun _ => 0) (fun _ => 0) (fun _ => 0) 1 (-1) 0 0).roslamb
      ≠ (1:ℝ) / (atmcorlamb2_body .landsat8 0 0 1 1 0 1 1 0 1013 (fun _ => 0)
        (fun _ => 0) (fun _ => 0) (fun _ => 0) 4 0 4 0 (fun _ => 0) (fun _ => 1)
        (fun _ => 0) (fun _ => 0) (fun _ => 0) (fun _ => 0) (fun _ => 0)
        (fun _ => 0) (fun _ => 0) 0 0 (fun _ => 0) (fun _ => 0) (fun _ => 0)
        (fun _ => 0) (fun _ => 0) (fun _ => 0) (fun _ => 0) 1 (-1) 0 0).tgo := by
  have h0 : ¬ sun_angle_index 0 0 4 > 19 := by
    unfold sun_angle_index
    rw [if_pos (by norm_num)]
    norm_num
  have hsucc : atmcorlamb2 .landsat8 0 0 1 1 0 1 1 0 1013 (fun _ => 0) (fun _ => 0)
      (fun _ => 0) (fun _ => 0) 4 0 4 0 (fun _ => 0) (fun _ => 1) (fun _ => 0)
      (fun _ => 0) (fun _ => 0) (fun _ => 0) (fun _ => 0) (fun _ => 0)
      (fun _ => 0) 0 0 (fun _ => 0) (fun _ => 0) (fun _ => 0) (fun _ => 0)
      (fun _ => 0) (fun _ => 0) (fun _ => 0) 1 (-1) 0 0
        = some (atmcorlamb2_body .landsat8 0 0 1 1 0 1 1 0 1013 (fun _ => 0)
      (fun _ => 0) (fun _ => 0) (fun _ => 0) 4 0 4 0 (fun _ => 0) (fun _ => 1)
      (fun _ => 0) (fun _ => 0) (fun _ => 0) (fun _ => 0) (fun _ => 0)
      (fun _ => 0) (fun _ => 0) 0 0 (fun _ => 0) (fun _ => 0) (fun _ => 0)
      (fun _ => 0) (fun _ => 0) (fun _ => 0) (fun _ => 0) 1 (-1) 0 0) := by
    simp only [atmcorlamb2]
    rw [if_neg h0]
  have hroslamb : (atmcorlamb2_body .landsat8 0 0 1 1 0 1 1 0 1013 (fun _ => 0)
      (fun _ => 0) (fun _ => 0) (fun _ => 0) 4 0 4 0 (fun _ => 0) (fun _ => 1)
      (fun _ => 0) (fun _ => 0) (fun _ => 0) (fun _ => 0) (fun _ => 0)
      (fun _ => 0) (fun _ => 0) 0 0 (fun _ => 0) (fun _ => 0) (fun _ => 0)
      (fun _ => 0) (fun _ => 0) (fun _ => 0) (fun _ => 0) 1 (-1) 0 0).roslamb
        = 0 := by
    simp only [atmcorlamb2_body]
    rw [comptrans_zero zfun_eq h0, compsalb_zero zfun_eq]
    simp
  have htgo : (atmcorlamb2_body .landsat8 0 0 1 1 0 1 1 0 1013 (fun _ => 0)
      (fun _ => 0) (fun _ => 0) (fun _ => 0) 4 0 4 0 (fun _ => 0) (fun _ => 1)
      (fun _ => 0) (fun _ => 0) (fun _ => 0) (fun _ => 0) (fun _ => 0)
      (fun _ => 0) (fun _ => 0) 0 0 (fun _ => 0) (fun _ => 0) (fun _ => 0)
      (fun _ => 0) (fun _ => 0) (fun _ => 0) (fun _ => 0) 1 (-1) 0 0).tgo
        = 1 := by
    simp only [atmcorlamb2_body]
    have hgog : (comptg 0 1 1 0 0 (1013 * ONE_DIV_ATMOS_PRES_0) (fun _ => 0)
        (fun _ => 0) (fun _ => 0) (fun _ => 0) (fun _ => 0) (fun _ => 0)).tgog
          = 1 := by
      simp [comptg, Real.exp_zero]
    have hgoz : (comptg 0 1 1 0 0 (1013 * ONE_DIV_ATMOS_PRES_0) (fun _ => 0)
        (fun _ => 0) (fun _ => 0) (fun _ => 0) (fun _ => 0) (fun _ => 0)).tgoz
          = 1 := by
      simp [comptg, Real.exp_zero]
    rw [hgog, hgoz]
    norm_num
  refine ⟨hsucc, hroslamb, by rw [htgo]; norm_num, ?_⟩
  rw [hroslamb, htgo]
  norm_num

/-! ## Claim C8 — log-space AOT interpolation at grid points -/

/-- C8 amended: the log-space AOT blend of `comproatm` is idempotent exactly
through the hard-coded `logaot550nm` cache: when the true log of the query AOT
equals the cached entry at a bracket corner (and the two cached entries
differ), `comproatm` returns the single-AOT-corner value at that corner.
(When the true log differs from the cached decimal — the generic case for the
standard grid — the fraction is not exactly 0 or 1 and exact idempotence
fails; see the counterexample.) -/
theorem C8_log_idempotence_amended (ip1 ip2 iaot1 iaot2 : ℤ)
    (xts xtv xmus xmuv cosxfi raot550nm : ℝ) (iband : ℤ) (pres : ℝ)
    (tpres aot550nm rolutt tsmax tsmin nbfic nbfi tts : ℤ → ℝ) (indts : ℤ → ℤ)
    (ttv : ℤ → ℝ) (xtsstep xtvstep xtvmin : ℝ) (its itv : ℤ)
    (hne : logaotLD iaot2 ≠ logaotLD iaot1) :
    (Real.log raot550nm = logaotLD iaot2 →
      comproatm ip1 ip2 iaot1 iaot2 xts xtv xmus xmuv cosxfi raot550nm iband
          pres tpres aot550nm rolutt tsmax tsmin nbfic nbfi tts indts ttv
          xtsstep xtvstep xtvmin its itv
        = comproatm_single_aot ip1 ip2 iaot2 iband pres tpres rolutt tsmax tsmin
            nbfic nbfi
            (Real.arccos (-(xmus * xmuv) -
              cosxfi * Real.sqrt (1 - xmus * xmus) * Real.sqrt (1 - xmuv * xmuv))
              * RAD2DEG)
            indts its itv
            ((tts (its + 1) - xts) / (tts (its + 1) - tts its))
            ((ttv ((itv + 1) * NSOLAR_ZEN_VALS + its) - xtv) /
              (ttv ((itv + 1) * NSOLAR_ZEN_VALS + its) - ttv (itv * NSOLAR_ZEN_VALS + its)))) ∧
    (Real.log raot550nm = logaotLD iaot1 →
      comproatm ip1 ip2 iaot1 iaot2 xts xtv xmus xmuv cosxfi raot550nm iband
          pres tpres aot550nm rolutt tsmax tsmin nbfic nbfi tts indts ttv
          xtsstep xtvstep xtvmin its itv
        = comproatm_single_aot ip1 ip2 iaot1 iband pres tpres rolutt tsmax tsmin
            nbfic nbfi
            (Real.arccos (-(xmus * xmuv) -
              cosxfi * Real.sqrt (1 - xmus * xmus) * Real.sqrt (1 - xmuv * xmuv))
              * RAD2DEG)
            indts its itv
            ((tts (its + 1) - xts) / (tts (its + 1) - tts its))
            ((ttv ((itv + 1) * NSOLAR_ZEN_VALS + its) - xtv) /
              (ttv ((itv + 1) * NSOLAR_ZEN_VALS + its) - ttv (itv * NSOLAR_ZEN_VALS + its)))) := by
  constructor
  · intro hlog
    have hdelta : comproatm_deltaaot raot550nm iaot1 iaot2 = 1 := by
      unfold comproatm_deltaaot
      rw [hlog]
      exact div_self (sub_ne_zero.mpr hne)
    simp only [comproatm, comproatm_pcorner, comproatm_single_aot]
    rw [hdelta]
    ring
  · intro hlog
    have hdelta : comproatm_deltaaot raot550nm iaot1 iaot2 = 0 := by
      unfold comproatm_deltaaot
      rw [hlog, sub_self, zero_div]
    simp only [comproatm, comproatm_pcorner, comproatm_single_aot]
    rw [hdelta]
    ring

/-- Witness for the amended C8: query AOT `1` bracketed by grid indices 8 and
9 — `ln 1 = 0` equals the cached `logaot550nm[9] = 0` exactly. -/
theorem C8_log_idempotence_amended_witness :
    comproatm 0 1 8 9 0 0 1 1 1 1 0 7 (fun _ => 0) (fun _ => 0) (fun _ => 0)
        (fun _ => 0) (fun _ => 0) (fun _ => 0) (fun _ => 0) (fun _ => 0)
        (fun _ => 0) (fun _ => 0) 4 4 0 0 0
      = comproatm_single_aot 0 1 9 0 7 (fun _ => 0) (fun _ => 0) (fun _ => 0)
          (fun _ => 0) (fun _ => 0) (fun _ => 0)
          (Real.arccos (-(1 * 1) - 1 * Real.sqrt (1 - 1 * 1) * Real.sqrt (1 - 1 * 1))
            * RAD2DEG)
          (fun _ => 0) 0 0 ((0 - 0) / (0 - 0)) ((0 - 0) / (0 - 0)) := by
  have hne : logaotLD 9 ≠ logaotLD 8 := by
    rw [show logaotLD 9 = 0.000000000 from rfl,
      show logaotLD 8 = -0.223143551 from rfl]
    norm_num
  have hlog : Real.log 1 = logaotLD 9 := by
    rw [Real.log_one, show logaotLD 9 = 0.000000000 from rfl]
    norm_num
  exact (C8_log_idempotence_amended 0 1 8 9 0 0 1 1 1 1 0 7 (fun _ => 0)
    (fun _ => 0) (fun _ => 0) (fun _ => 0) (fun _ => 0) (fun _ => 0)
    (fun _ => 0) (fun _ => 0) (fun _ => 0) (fun _ => 0) 4 4 0 0 0 hne).1 hlog

/-- C8 counterexample: query AOT `2` on the caller-supplied grid
`aot550nm[i] = i + 1` equals grid entry 1, the scan brackets it with
`(iaot1, iaot2) = (0, 1)`, and the reflectance table holds `0, 1, 22, 23` on
the four (pressure, AOT) corner blocks; `comproatm` returns
`(ln 2 + 4.605170186)/1.609437912 ≈ 3.29` — not the corner value `1` (nor
`0`), because the blend uses the hard-coded log cache, not the log of the
supplied grid. -/
theorem C8_gridpoint_counterexample :
    atmc_iaot1 2 (fun i => (i : ℝ) + 1) = 0 ∧
    comproatm 0 1 0 1 0 0 1 1 1 2 0 7 (fun i => 7 - (i : ℝ)) (fun i => (i : ℝ) + 1)
        (fun k => ((k / 8000 : ℤ) : ℝ)) (fun _ => 100) (fun _ => 140) (fun _ => 2)
        (fun _ => 2) (fun i => 4 * (i : ℝ)) (fun _ => 0) (fun i => (i : ℝ)) 4 4 0 0 0
      = (Real.log 2 + 4.605170186) / 1.609437912 ∧
    comproatm_single_aot 0 1 1 0 7 (fun i => 7 - (i : ℝ))
        (fun k => ((k / 8000 : ℤ) : ℝ)) (fun _ => 100) (fun _ => 140) (fun _ => 2)
        (fun _ => 2) 180 (fun _ => 0) 0 0 1 1 = 1 ∧
    comproatm_single_aot 0 1 0 0 7 (fun i => 7 - (i : ℝ))
        (fun k => ((k / 8000 : ℤ) : ℝ)) (fun _ => 100) (fun _ => 140) (fun _ => 2)
        (fun _ => 2) 180 (fun _ => 0) 0 0 1 1 = 0 ∧
    (Real.log 2 + 4.605170186) / 1.609437912 ≠ 1 ∧
    (Real.log 2 + 4.605170186) / 1.609437912 ≠ 0 := by
  have hceil : ⌈(-19 : ℝ)⌉ = -19 := by
    rw [Int.ceil_eq_iff]
    constructor <;> norm_num
  have hblock : ∀ B v : ℤ, B / 8000 = v → (B + 1) / 8000 = v → ∀ t u : ℝ,
      interp_refl_using_scat_angle 0 0 (fun _ => 100) (fun _ => 140) (fun _ => 2)
        (fun _ => 2) 180 (fun _ => 0) (fun k => ((k / 8000 : ℤ) : ℝ)) B t u
      = (v : ℝ) := by
    intro B v hv0 hv1 t u
    have hc : ∀ i : ℤ, 0 ≤ i → i ≤ 3 →
        interp_refl_corner 0 0 i (fun _ => 100) (fun _ => 140) (fun _ => 2)
          (fun _ => 2) 180 (fun _ => 0) (fun k => ((k / 8000 : ℤ) : ℝ)) B
        = (v : ℝ) := by
      intro i h0 h3
      interval_cases i
      · norm_num [interp_refl_corner, ctrunc, hv0]
      · norm_num [interp_refl_corner, ctrunc, hv0]
      · norm_num [interp_refl_corner, ctrunc, hv0]
      · norm_num [interp_refl_corner, ctrunc, isca_clamped, isca_keep, isca_pre,
          hceil, hv0, hv1]
    simp only [interp_refl_using_scat_angle]
    rw [hc 0 (by norm_num) (by norm_num), hc 1 (by norm_num) (by norm_num),
      hc 2 (by norm_num) (by norm_num), hc 3 (by norm_num) (by norm_num)]
    ring
  have hb00 : comproatm_block_indx 0 0 0 = 0 := by
    norm_num [comproatm_block_indx, NPRES_VALS, NAOT_VALS, NSOLAR_VALS,
      NAOTxNSOLAR_VALS]
  have hb01 : comproatm_block_indx 0 0 1 = 8000 := by
    norm_num [comproatm_block_indx, NPRES_VALS, NAOT_VALS, NSOLAR_VALS,
      NAOTxNSOLAR_VALS]
  have hb10 : comproatm_block_indx 0 1 0 = 176000 := by
    norm_num [comproatm_block_indx, NPRES_VALS, NAOT_VALS, NSOLAR_VALS,
      NAOTxNSOLAR_VALS]
  have hb11 : comproatm_block_indx 0 1 1 = 184000 := by
    norm_num [comproatm_block_indx, NPRES_VALS, NAOT_VALS, NSOLAR_VALS,
      NAOTxNSOLAR_VALS]
  have hscaa : Real.arccos (-(1 * 1) -
      1 * Real.sqrt (1 - 1 * 1) * Real.sqrt (1 - 1 * 1)) * RAD2DEG = (180:ℝ) := by
    rw [show -((1:ℝ) * 1) - 1 * Real.sqrt (1 - 1 * 1) * Real.sqrt (1 - 1 * 1)
        = -1 by norm_num [Real.sqrt_zero]]
    rw [Real.arccos_neg_one, RAD2DEG]
    field_simp
  have hdelta : comproatm_deltaaot 2 0 1
      = (Real.log 2 + 4.605170186) / 1.609437912 := by
    unfold comproatm_deltaaot
    rw [show logaotLD 0 = -4.605170186 from rfl,
      show logaotLD 1 = -2.995732274 from rfl]
    norm_num
  have hgt3 : (Real.log 2 + 4.605170186) / 1.609437912 > 3 := by
    have hl2 := Real.log_two_gt_d9
    rw [gt_iff_lt, lt_div_iff₀ (by norm_num)]
    linarith
  have hscan : atmc_iaot1 2 (fun i => (i : ℝ) + 1) = 0 := by
    unfold atmc_iaot1
    have h := scan_last_threshold
      (fun iaot => (2:ℝ) > (((iaot : ℕ) : ℤ) : ℝ) + 1) (k := 1) (n := 21)
      (by norm_num)
      (fun j hj => by
        constructor
        · intro hlt
          have hlt' : (((j : ℕ) : ℤ) : ℝ) + 1 < 2 := hlt
          by_contra hc
          push_neg at hc
          have h1 : (1:ℝ) ≤ ((j : ℤ) : ℝ) := by exact_mod_cast hc
          linarith
        · intro hlt
          have h0 : j = 0 := by omega
          subst h0
          show (2:ℝ) > (((0 : ℕ) : ℤ) : ℝ) + 1
          norm_num)
    rw [h]
    norm_num
  refine ⟨hscan, ?_, ?_, ?_, ?_, ?_⟩
  · simp only [comproatm, comproatm_pcorner]
    rw [hscaa, hb00, hb01, hb10, hb11]
    rw [hblock 0 0 (by decide) (by decide), hblock 8000 1 (by decide) (by decide),
      hblock 176000 22 (by decide) (by decide),
      hblock 184000 23 (by decide) (by decide)]
    rw [hdelta]
    norm_num
  · simp only [comproatm_single_aot]
    rw [hb01, hb11]
    rw [hblock 8000 1 (by decide) (by decide), hblock 184000 23 (by decide) (by decide)]
    norm_num
  · simp only [comproatm_single_aot]
    rw [hb00, hb10]
    rw [hblock 0 0 (by decide) (by decide), hblock 176000 22 (by decide) (by decide)]
    norm_num
  · exact ne_of_gt (by linarith)
  · exact ne_of_gt (by linarith)

end Lasrc
